import Mathlib

/-!
The havoc mutation engine of `mutate.cxx`.

A shallow embedding of `src/mplfuzz/c/mutate.cxx` and `src/tracefuzz/c/mutate.h`.

* The generator state `_state` (a `uint64_t` global) is a `Nat`, threaded
  explicitly: every function that draws takes the state and returns the new one.
* `u32` values are `Nat`; `u32` subtraction and addition wrap through
  `sub32` / `add32`.
* A buffer is the list of the bytes of its allocation (`ar`) together with the
  logical length `len` the C code carries next to the pointer.  Bytes are `Nat`.
  Multi-byte accesses are little-endian (the header's `__x86_64__` target).
* What C leaves undefined is a parameter (`Env`): the bytes of a fresh `malloc`
  block and the value read behind the end of an interesting-value table.
* Operands of an assignment are evaluated right-hand side first (C++17),
  which fixes the order of the draws in `a[draw] op= draw`.
-/

namespace Mutate

/-! ## Constants of `mutate.h` -/

def ARITH_MAX : Nat := 35
def MAX_STR_LEN : Nat := 1 * 1024 * 1024
def HAVOC_BLK_SMALL : Nat := 32
def HAVOC_BLK_MEDIUM : Nat := 128
def HAVOC_BLK_LARGE : Nat := 1500
def HAVOC_BLK_XL : Nat := 32768

/-- The macro `MIN(_a,_b)`: `((_a) > (_b) ? (_b) : (_a))`. -/
def MIN (a b : Nat) : Nat := if a > b then b else a

def INTERESTING_8 : List Int := [-128, -1, 0, 1, 16, 32, 64, 100, 127]

def INTERESTING_16 : List Int :=
  [-32768, -129, 128, 255, 256, 512, 1000, 1024, 4096, 32767]

def INTERESTING_32 : List Int :=
  [-2147483648, -100663046, -32769, 32768, 65535, 65536, 100663045, 2147483647]

def interesting_8 : List Int := INTERESTING_8
def interesting_16 : List Int := INTERESTING_8 ++ INTERESTING_16
def interesting_32 : List Int := INTERESTING_8 ++ INTERESTING_16 ++ INTERESTING_32

/-- The value of `sizeof(interesting_8)`: 9 entries of one byte. -/
def sizeof_interesting_8 : Nat := interesting_8.length * 1
/-- The value of `sizeof(interesting_16)`: 19 entries of two bytes. -/
def sizeof_interesting_16 : Nat := interesting_16.length * 2
/-- The value of `sizeof(interesting_32)`: 27 entries of four bytes. -/
def sizeof_interesting_32 : Nat := interesting_32.length * 4

/-! ## Machine arithmetic -/

/-- Wrapping `u32` addition. -/
def add32 (a b : Nat) : Nat := (a + b) % 2 ^ 32

/-- Wrapping `u32` subtraction (for operands below `2 ^ 32`). -/
def sub32 (a b : Nat) : Nat := (a + 2 ^ 32 - b % 2 ^ 32) % 2 ^ 32

/-- Conversion of a signed table entry to `uint8_t`. -/
def toU8 (x : Int) : Nat := (x % 256).toNat
/-- Conversion of a signed table entry to `uint16_t`. -/
def toU16 (x : Int) : Nat := (x % 65536).toNat
/-- Conversion of a signed table entry to `uint32_t`. -/
def toU32 (x : Int) : Nat := (x % 4294967296).toNat

/-- The macro `SWAP16` on a 16-bit value. -/
def SWAP16 (x : Nat) : Nat :=
  let r := x % 2 ^ 16
  ((r <<< 8) ||| (r >>> 8)) % 2 ^ 16

/-- The macro `SWAP32` on a 32-bit value. -/
def SWAP32 (x : Nat) : Nat :=
  let r := x % 2 ^ 32
  (((r <<< 24) % 2 ^ 32) ||| (r >>> 24) ||| (((r <<< 8) % 2 ^ 32) &&& 0x00FF0000) |||
    ((r >>> 8) &&& 0x0000FF00)) % 2 ^ 32

/-! ## The generator -/

/-- The mixing function `hash64` on a 64-bit word. -/
def hash64 (input : Nat) : Nat :=
  let input := ((input ^^^ 0x9E3779B97F4A7C15) * 0xBF58476D1CE4E5B9) % 2 ^ 64
  let input := ((input ^^^ (input >>> 30)) * 0x94D049BB133111EB) % 2 ^ 64
  input ^^^ (input >>> 31)

/-- The seeding call `chain_rng_init(seed)`: the new `_state`, given the old one. -/
def chain_rng_init (seed : Nat) (_state : Nat) : Nat := seed

/-- The state update `chain_rng_next()`. -/
def chain_rng_next (_state : Nat) : Nat := hash64 _state

/-- The bounded draw `chain_rng_rand_range(max)`: the value returned and the new `_state`. -/
def chain_rng_rand_range (max : Nat) (_state : Nat) : Nat × Nat :=
  if max ≤ 1 then (0, _state)
  else
    let result := (((_state * max) % 2 ^ 64) >>> 32) % 2 ^ 32
    (result % max, chain_rng_next _state)

/-- The accessor `chain_rng_get_current_state()`. -/
def chain_rng_get_current_state (_state : Nat) : Nat := _state

/-- A sequence of `chain_rng_rand_range` calls, one per bound, in order:
the list of the values returned and the final `_state`. -/
def rand_range_seq : List Nat → Nat → List Nat × Nat
  | [], s => ([], s)
  | m :: ms, s =>
    let r := chain_rng_rand_range m s
    let rest := rand_range_seq ms r.2
    (r.1 :: rest.1, rest.2)

/-! ## The block-length selector -/

/-- The `switch` of `choose_block_len`: the tier bounds `(min_value, max_value)` picked,
before the reset of `min_value`, and the state after the one or two draws. -/
def choose_block_tier (s : Nat) : (Nat × Nat) × Nat :=
  let t := chain_rng_rand_range 3 s
  match t.1 with
  | 0 => ((1, HAVOC_BLK_SMALL), t.2)
  | 1 => ((HAVOC_BLK_SMALL, HAVOC_BLK_MEDIUM), t.2)
  | _ =>
    let u := chain_rng_rand_range 10 t.2
    if u.1 ≠ 0 then ((HAVOC_BLK_MEDIUM, HAVOC_BLK_LARGE), u.2)
    else ((HAVOC_BLK_LARGE, HAVOC_BLK_XL), u.2)

/-- The value of `min_value` after `if (min_value >= limit) min_value = 1;`. -/
def choose_block_min (limit : Nat) (s : Nat) : Nat :=
  let tier := choose_block_tier s
  if tier.1.1 ≥ limit then 1 else tier.1.1

/-- The selector `choose_block_len(limit)`: the length returned and the new state. -/
def choose_block_len (limit : Nat) (s : Nat) : Nat × Nat :=
  let tier := choose_block_tier s
  let max_value := tier.1.2
  let min_value := choose_block_min limit s
  let r := chain_rng_rand_range (add32 (sub32 (MIN max_value limit) min_value) 1) tier.2
  (add32 min_value r.1, r.2)

/-! ## Memory -/

/-- What the C code leaves undefined, as parameters. -/
structure Env where
  /-- The byte at offset `i` of the block returned by the `malloc` of iteration `k`. -/
  fresh : Nat → Nat → Nat
  /-- The value read from `interesting_16` at an index behind its last entry. -/
  wild16 : Nat → Int
  /-- The value read from `interesting_32` at an index behind its last entry. -/
  wild32 : Nat → Int

/-- Read of the byte `_ar[i]`. -/
def load8 (ar : List Nat) (i : Nat) : Nat := ar.getD i 0

/-- Write of the byte `_ar[i] = v`. -/
def store8 (ar : List Nat) (i : Nat) (v : Nat) : List Nat := ar.set i (v % 256)

/-- Read of `*(u16*)(_ar + p)`. -/
def load16 (ar : List Nat) (p : Nat) : Nat := load8 ar p + 256 * load8 ar (p + 1)

/-- Write of `*(u16*)(_ar + p) = v`. -/
def store16 (ar : List Nat) (p : Nat) (v : Nat) : List Nat :=
  store8 (store8 ar p v) (p + 1) (v / 256)

/-- Read of `*(u32*)(_ar + p)`. -/
def load32 (ar : List Nat) (p : Nat) : Nat :=
  load8 ar p + 256 * load8 ar (p + 1) + 65536 * load8 ar (p + 2) + 16777216 * load8 ar (p + 3)

/-- Write of `*(u32*)(_ar + p) = v`. -/
def store32 (ar : List Nat) (p : Nat) (v : Nat) : List Nat :=
  store8 (store8 (store8 (store8 ar p v) (p + 1) (v / 256)) (p + 2) (v / 65536))
    (p + 3) (v / 16777216)

/-- Overwrite of the bytes of `ar` from offset `dst` on with the block `blk`;
the allocation keeps its size. -/
def blit (ar : List Nat) (dst : Nat) (blk : List Nat) : List Nat :=
  (ar.take dst ++ blk ++ ar.drop (dst + blk.length)).take ar.length

/-- The call `memmove(_ar + dst, _ar + src, n)`: the source block is read first. -/
def memmove (ar : List Nat) (dst src n : Nat) : List Nat :=
  blit ar dst ((ar.drop src).take n)

/-- The call `memcpy(new_buf + dst, _ar + src, n)` between two allocations. -/
def memcpy (new_buf : List Nat) (dst : Nat) (ar : List Nat) (src n : Nat) : List Nat :=
  blit new_buf dst ((ar.drop src).take n)

/-- The call `memset(_ar + dst, v, n)`; `v` is converted to `unsigned char`. -/
def memset (ar : List Nat) (dst v n : Nat) : List Nat :=
  blit ar dst (List.replicate n (v % 256))

/-- The call `malloc(n)`: `n` bytes of undefined content `junk`. -/
def malloc (junk : Nat → Nat) (n : Nat) : List Nat := (List.range n).map junk

/-! ## Primitive operators

Each takes the allocation `_ar`, the length `len` and the generator state, and
returns the allocation and the state afterwards; `len` is passed by value. -/

def bitflip1 (ar : List Nat) (len : Nat) (s : Nat) : List Nat × Nat :=
  if len = 0 then (ar, s)
  else
    let p := chain_rng_rand_range len s
    (ar.set (p.1 >>> 3) (load8 ar (p.1 >>> 3) ^^^ (128 >>> (p.1 &&& 7))), p.2)

def byte_interesting (ar : List Nat) (len : Nat) (s : Nat) : List Nat × Nat :=
  if len = 0 then (ar, s)
  else
    let v := chain_rng_rand_range sizeof_interesting_8 s
    let i := chain_rng_rand_range len v.2
    (store8 ar i.1 (toU8 (interesting_8.getD v.1 0)), i.2)

def word_interesting (wild : Nat → Int) (ar : List Nat) (len : Nat) (s : Nat) :
    List Nat × Nat :=
  if len < 2 then (ar, s)
  else
    let k := chain_rng_rand_range sizeof_interesting_16 s
    let n := toU16 (interesting_16.getD k.1 (wild k.1))
    let c := chain_rng_rand_range 2 k.2
    let p := chain_rng_rand_range (sub32 len 1) c.2
    if c.1 ≠ 0 then (store16 ar p.1 n, p.2)
    else (store16 ar p.1 (SWAP16 n), p.2)

def dword_interesting (wild : Nat → Int) (ar : List Nat) (len : Nat) (s : Nat) :
    List Nat × Nat :=
  if len < 4 then (ar, s)
  else
    let k := chain_rng_rand_range sizeof_interesting_32 s
    let n := toU32 (interesting_32.getD k.1 (wild k.1))
    let c := chain_rng_rand_range 2 k.2
    let p := chain_rng_rand_range (sub32 len 3) c.2
    if c.1 ≠ 0 then (store32 ar p.1 n, p.2)
    else (store32 ar p.1 (SWAP32 n), p.2)

def byte_arith (ar : List Nat) (len : Nat) (s : Nat) : List Nat × Nat :=
  if len = 0 then (ar, s)
  else
    let c := chain_rng_rand_range 2 s
    let d := chain_rng_rand_range ARITH_MAX c.2
    let i := chain_rng_rand_range len d.2
    if c.1 ≠ 0 then (store8 ar i.1 (load8 ar i.1 + 256 - (1 + d.1) % 256), i.2)
    else (store8 ar i.1 (load8 ar i.1 + (1 + d.1)), i.2)

def word_arith (ar : List Nat) (len : Nat) (s : Nat) : List Nat × Nat :=
  if len < 2 then (ar, s)
  else
    let p := chain_rng_rand_range (sub32 len 1) s
    let d := chain_rng_rand_range ARITH_MAX p.2
    let n := (1 + d.1) % 2 ^ 16
    let c := chain_rng_rand_range 2 d.2
    let e := chain_rng_rand_range 2 c.2
    let w := load16 ar p.1
    if c.1 ≠ 0 then
      if e.1 ≠ 0 then (store16 ar p.1 ((w + 2 ^ 16 - (1 + n)) % 2 ^ 16), e.2)
      else (store16 ar p.1 (SWAP16 ((SWAP16 w + 2 ^ 16 - n) % 2 ^ 16)), e.2)
    else
      if e.1 ≠ 0 then (store16 ar p.1 ((w + (1 + n)) % 2 ^ 16), e.2)
      else (store16 ar p.1 (SWAP16 ((SWAP16 w + n) % 2 ^ 16)), e.2)

def dword_arith (ar : List Nat) (len : Nat) (s : Nat) : List Nat × Nat :=
  if len < 4 then (ar, s)
  else
    let p := chain_rng_rand_range (sub32 len 3) s
    let d := chain_rng_rand_range ARITH_MAX p.2
    let n := add32 1 d.1
    let c := chain_rng_rand_range 2 d.2
    let e := chain_rng_rand_range 2 c.2
    let w := load32 ar p.1
    if c.1 ≠ 0 then
      if e.1 ≠ 0 then (store32 ar p.1 (sub32 w (add32 1 n)), e.2)
      else (store32 ar p.1 (SWAP32 (sub32 (SWAP32 w) n)), e.2)
    else
      if e.1 ≠ 0 then (store32 ar p.1 (add32 w (add32 1 n)), e.2)
      else (store32 ar p.1 (SWAP32 (add32 (SWAP32 w) n)), e.2)

def byte_random (ar : List Nat) (len : Nat) (s : Nat) : List Nat × Nat :=
  if len = 0 then (ar, s)
  else
    let x := chain_rng_rand_range 255 s
    let i := chain_rng_rand_range len x.2
    (ar.set i.1 (load8 ar i.1 ^^^ ((1 + x.1) % 256)), i.2)

/-! ## Region operators -/

/-- The constant byte of the `memset` calls:
`chain_rng_rand_range(2) ? chain_rng_rand_range(bound) : _ar[chain_rng_rand_range(len)]`. -/
def fill_byte (bound : Nat) (ar : List Nat) (len : Nat) (s : Nat) : Nat × Nat :=
  let c := chain_rng_rand_range 2 s
  if c.1 ≠ 0 then chain_rng_rand_range bound c.2
  else
    let i := chain_rng_rand_range len c.2
    (load8 ar i.1, i.2)

def bytes_random (ar : List Nat) (len : Nat) (s : Nat) : List Nat × Nat :=
  if len < 2 then (ar, s)
  else
    let copy_len := choose_block_len (sub32 len 1) s
    let copy_from := chain_rng_rand_range (add32 (sub32 len copy_len.1) 1) copy_len.2
    let copy_to := chain_rng_rand_range (add32 (sub32 len copy_len.1) 1) copy_from.2
    let c := chain_rng_rand_range 4 copy_to.2
    if c.1 ≠ 0 then
      if copy_from.1 ≠ copy_to.1 then (memmove ar copy_to.1 copy_from.1 copy_len.1, c.2)
      else (ar, c.2)
    else
      let v := fill_byte 255 ar len c.2
      (memset ar copy_to.1 v.1 copy_len.1, v.2)

/-- The first draw of `random_delete_bytes`, `del_len = chain_rng_rand_range(len-1)`:
the value and the state after it. -/
def delete_len (len : Nat) (s : Nat) : Nat × Nat := chain_rng_rand_range (sub32 len 1) s

/-- The second draw of `random_delete_bytes`,
`del_from = chain_rng_rand_range(len-del_len+1)`: the value and the state after it. -/
def delete_from (len : Nat) (s : Nat) : Nat × Nat :=
  chain_rng_rand_range (add32 (sub32 len (delete_len len s).1) 1) (delete_len len s).2

/-- The operator `random_delete_bytes(_ar, len)`; `len` is a reference:
the allocation, the new `len` and the state afterwards. -/
def random_delete_bytes (ar : List Nat) (len : Nat) (s : Nat) : List Nat × Nat × Nat :=
  if len < 2 then (ar, len, s)
  else
    let del_len := delete_len len s
    let del_from := delete_from len s
    (memmove ar del_from.1 (del_from.1 + del_len.1) (sub32 (sub32 len del_from.1) del_len.1),
      sub32 len del_len.1, del_from.2)

/-- The operator `str_growth(_ar, len)`; `_ar` and `len` are references:
the new allocation, the new `len` and the state afterwards.
`junk` is the content of the block `malloc` returns. -/
def str_growth (junk : Nat → Nat) (ar : List Nat) (len : Nat) (s : Nat) :
    List Nat × Nat × Nat :=
  if len = 0 then (ar, len, s)
  else if len > MAX_STR_LEN then (ar, len, s)
  else
    let sel := chain_rng_rand_range 4 s
    let clone_or_insert := sel.1 % 256
    let growth_len :=
      if clone_or_insert ≠ 0 then choose_block_len len sel.2
      else choose_block_len HAVOC_BLK_XL sel.2
    let growth_from :=
      if clone_or_insert ≠ 0 then
        chain_rng_rand_range (add32 (sub32 len growth_len.1) 1) growth_len.2
      else (0, growth_len.2)
    let growth_to := chain_rng_rand_range len growth_from.2
    let new_buf := malloc junk (add32 (add32 len growth_len.1) 1)
    let new_buf := memcpy new_buf 0 ar 0 growth_to.1
    let filled :=
      if clone_or_insert ≠ 0 then
        (memcpy new_buf growth_to.1 ar growth_from.1 growth_len.1, growth_to.2)
      else
        let v := fill_byte 256 ar len growth_to.2
        (memset new_buf growth_to.1 v.1 growth_len.1, v.2)
    let len := add32 len growth_len.1
    (store8 filled.1 len 0, len, filled.2)

/-! ## The havoc driver -/

/-- One iteration of the loop of `havoc`: the draw of `op` and the `switch`.
`k` is the iteration number. -/
def havoc_step (env : Env) (is_str : Bool) (k : Nat) (ar : List Nat) (len : Nat) (s : Nat) :
    List Nat × Nat × Nat :=
  let r := chain_rng_rand_range (if is_str then 11 else 9) s
  let op := r.1 % 2 ^ 16
  match op with
  | 0 => let o := bitflip1 ar len r.2; (o.1, len, o.2)
  | 1 => let o := byte_interesting ar len r.2; (o.1, len, o.2)
  | 2 => let o := word_interesting env.wild16 ar len r.2; (o.1, len, o.2)
  | 3 => let o := dword_interesting env.wild32 ar len r.2; (o.1, len, o.2)
  | 4 => let o := byte_arith ar len r.2; (o.1, len, o.2)
  | 5 => let o := word_arith ar len r.2; (o.1, len, o.2)
  | 6 => let o := dword_arith ar len r.2; (o.1, len, o.2)
  | 7 => let o := byte_random ar len r.2; (o.1, len, o.2)
  | 8 => let o := bytes_random ar len r.2; (o.1, len, o.2)
  | 9 => random_delete_bytes ar len r.2
  | 10 => str_growth (env.fresh k) ar len r.2
  | _ => (ar, len, r.2)

/-- The loop `for (i = k; i < k + n; i++)` of `havoc`, by recursion on the
number `n` of iterations left. -/
def havoc_loop (env : Env) (is_str : Bool) :
    Nat → Nat → List Nat → Nat → Nat → List Nat × Nat × Nat
  | 0, _, ar, len, s => (ar, len, s)
  | n + 1, k, ar, len, s =>
    let o := havoc_step env is_str k ar len s
    havoc_loop env is_str n (k + 1) o.1 o.2.1 o.2.2

/-- The number of iterations `use_stacking = 1 << (1 + chain_rng_rand_range(7))`
and the state after its draw. -/
def use_stacking (s : Nat) : Nat × Nat :=
  let r := chain_rng_rand_range 7 s
  ((1 <<< (1 + r.1)) % 2 ^ 32, r.2)

/-- The driver `havoc(ar, len, is_str)`: the allocation, the length and the
generator state when it returns. -/
def havoc (env : Env) (ar : List Nat) (len : Nat) (is_str : Bool) (s : Nat) :
    List Nat × Nat × Nat :=
  let n := use_stacking s
  havoc_loop env is_str n.1 0 ar len n.2

/-- The draw `op = chain_rng_rand_range(is_str?11:9)` of one iteration of `havoc`:
the operator index (a `u16`) and the state after the draw. -/
def havoc_op (is_str : Bool) (s : Nat) : Nat × Nat :=
  let r := chain_rng_rand_range (if is_str then 11 else 9) s
  (r.1 % 2 ^ 16, r.2)

/-! ## The draws of the region operators, by name

Each is the value drawn and the generator state after it, as in the operator's body. -/

/-- The draw `copy_len = choose_block_len(len-1)` of `bytes_random`. -/
def copy_len (len : Nat) (s : Nat) : Nat × Nat := choose_block_len (sub32 len 1) s

/-- The draw `copy_from = chain_rng_rand_range(len - copy_len + 1)` of `bytes_random`. -/
def copy_from (len : Nat) (s : Nat) : Nat × Nat :=
  chain_rng_rand_range (add32 (sub32 len (copy_len len s).1) 1) (copy_len len s).2

/-- The draw `copy_to = chain_rng_rand_range(len - copy_len + 1)` of `bytes_random`. -/
def copy_to (len : Nat) (s : Nat) : Nat × Nat :=
  chain_rng_rand_range (add32 (sub32 len (copy_len len s).1) 1) (copy_from len s).2

/-- The draw `chain_rng_rand_range(4)` that picks the branch of `bytes_random`. -/
def copy_sel (len : Nat) (s : Nat) : Nat × Nat := chain_rng_rand_range 4 (copy_to len s).2

/-- The constant byte of the `memset` branch of `bytes_random`. -/
def copy_fill (ar : List Nat) (len : Nat) (s : Nat) : Nat × Nat :=
  fill_byte 255 ar len (copy_sel len s).2

/-- The draw `clone_or_insert = chain_rng_rand_range(4)` of `str_growth`, as the `u8` it is
stored in, and the state after it. -/
def growth_sel (s : Nat) : Nat × Nat :=
  ((chain_rng_rand_range 4 s).1 % 256, (chain_rng_rand_range 4 s).2)

/-- The draw of `growth_len` in `str_growth`: `choose_block_len(len)` in the clone branch,
`choose_block_len(HAVOC_BLK_XL)` in the insert branch. -/
def growth_len (len : Nat) (s : Nat) : Nat × Nat :=
  if (growth_sel s).1 ≠ 0 then choose_block_len len (growth_sel s).2
  else choose_block_len HAVOC_BLK_XL (growth_sel s).2

/-- The value of `growth_from` in `str_growth`: drawn in the clone branch, 0 otherwise. -/
def growth_from (len : Nat) (s : Nat) : Nat × Nat :=
  if (growth_sel s).1 ≠ 0 then
    chain_rng_rand_range (add32 (sub32 len (growth_len len s).1) 1) (growth_len len s).2
  else (0, (growth_len len s).2)

/-- The draw `growth_to = chain_rng_rand_range(len)` of `str_growth`. -/
def growth_to (len : Nat) (s : Nat) : Nat × Nat :=
  chain_rng_rand_range len (growth_from len s).2

/-- The constant byte of the `memset` branch of `str_growth`. -/
def growth_fill (ar : List Nat) (len : Nat) (s : Nat) : Nat × Nat :=
  fill_byte 256 ar len (growth_to len s).2

/-! ## Measures used to state the properties -/

/-- Number of bit positions, among the 8 of a byte, in which two bytes differ. -/
def bit_diff8 (a b : Nat) : Nat := (List.range 8).countP (fun i => (a ^^^ b).testBit i)

/-- Number of bit positions in which two buffers of the same size differ. -/
def bit_diff (a b : List Nat) : Nat := (List.zipWith bit_diff8 a b).sum

/-! ## Arithmetic facts shared by the proofs -/

theorem rand_range_lt (max s : Nat) (h : 1 < max) : (chain_rng_rand_range max s).1 < max := by
  unfold chain_rng_rand_range
  rw [if_neg (by omega)]
  exact Nat.mod_lt _ (by omega)

theorem rand_range_le_pred (max s : Nat) : (chain_rng_rand_range max s).1 ≤ max - 1 := by
  by_cases h : 1 < max
  · have := rand_range_lt max s h
    omega
  · unfold chain_rng_rand_range
    rw [if_pos (by omega)]
    exact Nat.zero_le _

theorem rand_range_degenerate (max s : Nat) (h : max ≤ 1) :
    chain_rng_rand_range max s = (0, s) := by
  unfold chain_rng_rand_range
  rw [if_pos h]

theorem rand_range_state (max s : Nat) (h : 1 < max) :
    (chain_rng_rand_range max s).2 = hash64 s := by
  unfold chain_rng_rand_range chain_rng_next
  rw [if_neg (by omega)]

/-- The tier bounds the `switch` of `choose_block_len` can pick. -/
theorem choose_block_tier_cases (s : Nat) :
    (choose_block_tier s).1 = (1, 32) ∨ (choose_block_tier s).1 = (32, 128) ∨
    (choose_block_tier s).1 = (128, 1500) ∨ (choose_block_tier s).1 = (1500, 32768) := by
  unfold choose_block_tier
  simp only [HAVOC_BLK_SMALL, HAVOC_BLK_MEDIUM, HAVOC_BLK_LARGE, HAVOC_BLK_XL]
  split
  · simp
  · simp
  · split <;> simp

/-- The reset keeps `min_value` at or below `MIN(max_value, limit)`, and at least 1. -/
theorem choose_block_min_le (limit s : Nat) (h : 0 < limit) :
    1 ≤ choose_block_min limit s ∧
    choose_block_min limit s ≤ MIN (choose_block_tier s).1.2 limit ∧
    MIN (choose_block_tier s).1.2 limit ≤ limit ∧
    MIN (choose_block_tier s).1.2 limit ≤ HAVOC_BLK_XL := by
  unfold choose_block_min MIN HAVOC_BLK_XL
  dsimp only
  rcases choose_block_tier_cases s with h1 | h1 | h1 | h1 <;> rw [h1] <;> dsimp only <;>
    split_ifs <;> omega

/-- The value `choose_block_len` returns lies between `min_value` and `MIN(max_value, limit)`. -/
theorem choose_block_len_range (limit s : Nat) (h : 0 < limit) (hl : limit < 2 ^ 32) :
    choose_block_min limit s ≤ (choose_block_len limit s).1 ∧
    (choose_block_len limit s).1 ≤ MIN (choose_block_tier s).1.2 limit := by
  obtain ⟨h1, h2, h3, _⟩ := choose_block_min_le limit s h
  have hr := rand_range_le_pred
    (add32 (sub32 (MIN (choose_block_tier s).1.2 limit) (choose_block_min limit s)) 1)
    (choose_block_tier s).2
  unfold choose_block_len
  simp only []
  generalize (chain_rng_rand_range
    (add32 (sub32 (MIN (choose_block_tier s).1.2 limit) (choose_block_min limit s)) 1)
    (choose_block_tier s).2).1 = r at hr ⊢
  generalize MIN (choose_block_tier s).1.2 limit = m at *
  generalize choose_block_min limit s = lo at *
  unfold add32 sub32 at *
  omega

/-! ## The generator: range, degenerate bounds, determinism -/

/-- C1: for every bound `max > 1` and every generator state, `chain_rng_rand_range(max)`
returns a value `r` with `0 ≤ r < max`. -/
theorem C1_rand_range_in_range (max s : Nat) (h : 1 < max) :
    0 ≤ (chain_rng_rand_range max s).1 ∧ (chain_rng_rand_range max s).1 < max :=
  ⟨Nat.zero_le _, rand_range_lt max s h⟩

/-- Witness of C1 at the bound 10 and the initial state 4399. -/
theorem C1_rand_range_in_range_witness :
    (1 < 10) ∧ (0 ≤ (chain_rng_rand_range 10 4399).1 ∧ (chain_rng_rand_range 10 4399).1 < 10) :=
  ⟨by decide, C1_rand_range_in_range 10 4399 (by decide)⟩

/-- C2: for every generator state, `chain_rng_rand_range(0)` and `chain_rng_rand_range(1)`
return 0 and leave the state as it was (`chain_rng_get_current_state` reads the same value
before and after); for every `max > 1` the state after the call is `hash64` of the state
before. -/
theorem C2_rand_range_state (s : Nat) :
    (chain_rng_rand_range 0 s).1 = 0 ∧ (chain_rng_rand_range 1 s).1 = 0 ∧
    chain_rng_get_current_state (chain_rng_rand_range 0 s).2 = chain_rng_get_current_state s ∧
    chain_rng_get_current_state (chain_rng_rand_range 1 s).2 = chain_rng_get_current_state s ∧
    ∀ max, 1 < max →
      chain_rng_get_current_state (chain_rng_rand_range max s).2 =
        hash64 (chain_rng_get_current_state s) := by
  refine ⟨?_, ?_, ?_, ?_, ?_⟩
  · rw [rand_range_degenerate 0 s (by omega)]
  · rw [rand_range_degenerate 1 s (by omega)]
  · rw [rand_range_degenerate 0 s (by omega)]
  · rw [rand_range_degenerate 1 s (by omega)]
  · intro max h
    unfold chain_rng_get_current_state
    exact rand_range_state max s h

/-- C3: after `chain_rng_init(seed)`, the results of a sequence of `chain_rng_rand_range`
calls and the final state are the same whatever the state before the seed call was:
they are those of the sequence run from the state `seed`. -/
theorem C3_reseed_deterministic (seed : Nat) (bounds : List Nat) (s₁ s₂ : Nat) :
    rand_range_seq bounds (chain_rng_init seed s₁) =
      rand_range_seq bounds (chain_rng_init seed s₂) ∧
    rand_range_seq bounds (chain_rng_init seed s₁) = rand_range_seq bounds seed := by
  unfold chain_rng_init
  exact ⟨rfl, rfl⟩

/-! ## The block-length selector -/

/-- C4: for every `limit > 0` (32-bit) and every generator state, `choose_block_len(limit)`
returns a value in `[1, limit]`, and `min_value ≤ MIN(max_value, limit)` when the
subtraction `MIN(max_value, limit) - min_value` is made, so that it does not wrap. -/
theorem C4_choose_block_len_bounds (limit s : Nat) (h : 0 < limit) (hl : limit < 2 ^ 32) :
    1 ≤ (choose_block_len limit s).1 ∧ (choose_block_len limit s).1 ≤ limit ∧
    (choose_block_len limit s).1 ≠ 0 ∧
    choose_block_min limit s ≤ MIN (choose_block_tier s).1.2 limit ∧
    sub32 (MIN (choose_block_tier s).1.2 limit) (choose_block_min limit s) =
      MIN (choose_block_tier s).1.2 limit - choose_block_min limit s := by
  obtain ⟨h1, h2, h3, _⟩ := choose_block_min_le limit s h
  obtain ⟨h4, h5⟩ := choose_block_len_range limit s h hl
  refine ⟨by omega, by omega, by omega, h2, ?_⟩
  unfold sub32
  omega

/-- Witness of C4 at `limit = 5` and the initial state 4399. -/
theorem C4_choose_block_len_bounds_witness :
    (0 < 5 ∧ 5 < 2 ^ 32) ∧
    (1 ≤ (choose_block_len 5 4399).1 ∧ (choose_block_len 5 4399).1 ≤ 5 ∧
    (choose_block_len 5 4399).1 ≠ 0 ∧
    choose_block_min 5 4399 ≤ MIN (choose_block_tier 4399).1.2 5 ∧
    sub32 (MIN (choose_block_tier 4399).1.2 5) (choose_block_min 5 4399) =
      MIN (choose_block_tier 4399).1.2 5 - choose_block_min 5 4399) :=
  ⟨by decide, C4_choose_block_len_bounds 5 4399 (by decide) (by decide)⟩

/-! ## Sizes: what each operator does to the allocation size and to `len` -/

theorem store8_length (ar : List Nat) (i v : Nat) : (store8 ar i v).length = ar.length := by
  simp [store8]

theorem store16_length (ar : List Nat) (p v : Nat) : (store16 ar p v).length = ar.length := by
  simp [store16, store8_length]

theorem store32_length (ar : List Nat) (p v : Nat) : (store32 ar p v).length = ar.length := by
  simp [store32, store8_length]

theorem blit_length (ar : List Nat) (dst : Nat) (blk : List Nat) :
    (blit ar dst blk).length = ar.length := by
  simp only [blit, List.length_take, List.length_append, List.length_drop]
  omega

theorem memmove_length (ar : List Nat) (dst src n : Nat) :
    (memmove ar dst src n).length = ar.length := blit_length _ _ _

theorem memset_length (ar : List Nat) (dst v n : Nat) :
    (memset ar dst v n).length = ar.length := blit_length _ _ _

theorem memcpy_length (new_buf : List Nat) (dst : Nat) (ar : List Nat) (src n : Nat) :
    (memcpy new_buf dst ar src n).length = new_buf.length := blit_length _ _ _

theorem malloc_length (junk : Nat → Nat) (n : Nat) : (malloc junk n).length = n := by
  simp [malloc]

theorem bitflip1_length (ar : List Nat) (len s : Nat) :
    (bitflip1 ar len s).1.length = ar.length := by
  unfold bitflip1
  split_ifs <;> simp

theorem byte_interesting_length (ar : List Nat) (len s : Nat) :
    (byte_interesting ar len s).1.length = ar.length := by
  unfold byte_interesting
  split_ifs <;> simp [store8_length]

theorem word_interesting_length (wild : Nat → Int) (ar : List Nat) (len s : Nat) :
    (word_interesting wild ar len s).1.length = ar.length := by
  unfold word_interesting
  dsimp only
  split_ifs <;> simp [store16_length]

theorem dword_interesting_length (wild : Nat → Int) (ar : List Nat) (len s : Nat) :
    (dword_interesting wild ar len s).1.length = ar.length := by
  unfold dword_interesting
  dsimp only
  split_ifs <;> simp [store32_length]

theorem byte_arith_length (ar : List Nat) (len s : Nat) :
    (byte_arith ar len s).1.length = ar.length := by
  unfold byte_arith
  dsimp only
  split_ifs <;> simp [store8_length]

theorem word_arith_length (ar : List Nat) (len s : Nat) :
    (word_arith ar len s).1.length = ar.length := by
  unfold word_arith
  dsimp only
  split_ifs <;> simp [store16_length]

theorem dword_arith_length (ar : List Nat) (len s : Nat) :
    (dword_arith ar len s).1.length = ar.length := by
  unfold dword_arith
  dsimp only
  split_ifs <;> simp [store32_length]

theorem byte_random_length (ar : List Nat) (len s : Nat) :
    (byte_random ar len s).1.length = ar.length := by
  unfold byte_random
  split_ifs <;> simp

theorem bytes_random_length (ar : List Nat) (len s : Nat) :
    (bytes_random ar len s).1.length = ar.length := by
  unfold bytes_random
  dsimp only
  split_ifs <;> simp [memmove_length, memset_length]

/-- In fixed-size mode one iteration changes neither `len` nor the allocation size. -/
theorem havoc_step_fixed (env : Env) (k : Nat) (ar : List Nat) (len s : Nat) :
    (havoc_step env false k ar len s).2.1 = len ∧
    (havoc_step env false k ar len s).1.length = ar.length := by
  have hop : (chain_rng_rand_range 9 s).1 % 2 ^ 16 < 9 :=
    lt_of_le_of_lt (Nat.mod_le _ _) (rand_range_lt 9 s (by omega))
  unfold havoc_step
  simp only [Bool.false_eq_true, if_false]
  generalize (chain_rng_rand_range 9 s).1 % 2 ^ 16 = op at hop
  split
  · exact ⟨rfl, bitflip1_length _ _ _⟩
  · exact ⟨rfl, byte_interesting_length _ _ _⟩
  · exact ⟨rfl, word_interesting_length _ _ _ _⟩
  · exact ⟨rfl, dword_interesting_length _ _ _ _⟩
  · exact ⟨rfl, byte_arith_length _ _ _⟩
  · exact ⟨rfl, word_arith_length _ _ _⟩
  · exact ⟨rfl, dword_arith_length _ _ _⟩
  · exact ⟨rfl, byte_random_length _ _ _⟩
  · exact ⟨rfl, bytes_random_length _ _ _⟩
  · omega
  · omega
  · exact ⟨rfl, rfl⟩

theorem havoc_loop_fixed (env : Env) (n : Nat) :
    ∀ (k : Nat) (ar : List Nat) (len s : Nat),
      (havoc_loop env false n k ar len s).2.1 = len ∧
      (havoc_loop env false n k ar len s).1.length = ar.length := by
  induction n with
  | zero => intro k ar len s; exact ⟨rfl, rfl⟩
  | succ n ih =>
    intro k ar len s
    obtain ⟨h1, h2⟩ := havoc_step_fixed env k ar len s
    obtain ⟨h3, h4⟩ := ih (k + 1) (havoc_step env false k ar len s).1
      (havoc_step env false k ar len s).2.1 (havoc_step env false k ar len s).2.2
    unfold havoc_loop
    dsimp only
    exact ⟨h3.trans h1, h4.trans h2⟩

/-! ## The driver in fixed-size mode -/

/-- C5: fixed-size invariance.  For every buffer, every length `len` (4 and 8 among them)
and every generator state, `havoc` with `is_str = false` returns with `len` unchanged,
and the allocation keeps its size, whatever stack depth and operator indices are drawn. -/
theorem C5_havoc_fixed_size (env : Env) (ar : List Nat) (len s : Nat) :
    (havoc env ar len false s).2.1 = len ∧
    (havoc env ar len false s).1.length = ar.length := by
  unfold havoc
  exact havoc_loop_fixed env _ 0 ar len _

/-! ## Deletion -/

/-- A block written inside the allocation replaces exactly the bytes it covers. -/
theorem blit_eq (ar : List Nat) (dst : Nat) (blk : List Nat)
    (h : dst + blk.length ≤ ar.length) :
    blit ar dst blk = ar.take dst ++ blk ++ ar.drop (dst + blk.length) := by
  unfold blit
  apply List.take_of_length_le
  simp only [List.length_append, List.length_take, List.length_drop]
  omega

/-- The bytes up to the end of a block written inside the allocation. -/
theorem blit_take (ar : List Nat) (dst : Nat) (blk : List Nat)
    (h : dst + blk.length ≤ ar.length) :
    (blit ar dst blk).take (dst + blk.length) = ar.take dst ++ blk := by
  rw [blit_eq ar dst blk h]
  have hl : (ar.take dst ++ blk).length = dst + blk.length := by
    simp only [List.length_append, List.length_take]
    omega
  rw [← hl, List.take_left]

/-- The two draws of `random_delete_bytes`: the deletion length is at most `len - 2`,
the block `[del_from, del_from + del_len)` lies inside the buffer, and none of the
`u32` operations wraps. -/
theorem delete_draws (len s : Nat) (h : 2 ≤ len) (hl : len < 2 ^ 32) :
    (delete_len len s).1 + 2 ≤ len ∧ (delete_from len s).1 + (delete_len len s).1 ≤ len := by
  have h1 := rand_range_le_pred (sub32 len 1) s
  have h2 := rand_range_le_pred
    (add32 (sub32 len (chain_rng_rand_range (sub32 len 1) s).1) 1)
    (chain_rng_rand_range (sub32 len 1) s).2
  unfold delete_from delete_len
  generalize (chain_rng_rand_range
    (add32 (sub32 len (chain_rng_rand_range (sub32 len 1) s).1) 1)
    (chain_rng_rand_range (sub32 len 1) s).2).1 = f at h2 ⊢
  generalize (chain_rng_rand_range (sub32 len 1) s).1 = d at h1 h2 ⊢
  unfold add32 sub32 at *
  omega

/-- The result of `random_delete_bytes` on a buffer of at least 2 bytes. -/
theorem delete_unfold (ar : List Nat) (len s : Nat) (h : 2 ≤ len) :
    random_delete_bytes ar len s =
      (memmove ar (delete_from len s).1 ((delete_from len s).1 + (delete_len len s).1)
          (sub32 (sub32 len (delete_from len s).1) (delete_len len s).1),
        sub32 len (delete_len len s).1, (delete_from len s).2) := by
  unfold random_delete_bytes
  rw [if_neg (by omega)]

/-- C6 as stated fails: on a 2-byte buffer, from the initial generator state 4399,
`random_delete_bytes` draws the deletion length 0 and the length stays 2. -/
theorem C6_counterexample :
    (random_delete_bytes [97, 98, 0] 2 4399).2.1 = 2 ∧
    ¬ ((random_delete_bytes [97, 98, 0] 2 4399).2.1 < 2) := by
  decide

/-- C6, amended: for every buffer of length at least 2 and every generator state, after one
call of `random_delete_bytes` the new length is at most the old length (and at least 0), and
it is strictly less exactly when the deletion length drawn, `chain_rng_rand_range(len - 1)`,
is not zero. -/
theorem C6_delete_length (ar : List Nat) (len s : Nat) (h : 2 ≤ len) (hl : len < 2 ^ 32) :
    0 ≤ (random_delete_bytes ar len s).2.1 ∧
    (random_delete_bytes ar len s).2.1 ≤ len ∧
    ((random_delete_bytes ar len s).2.1 < len ↔ (delete_len len s).1 ≠ 0) := by
  obtain ⟨h1, _⟩ := delete_draws len s h hl
  rw [delete_unfold ar len s h]
  dsimp only
  generalize (delete_len len s).1 = d at h1 ⊢
  unfold sub32
  omega

/-- Witness of the amended C6 on a 7-byte buffer. -/
theorem C6_delete_length_witness :
    (2 ≤ 7 ∧ 7 < 2 ^ 32) ∧
    (0 ≤ (random_delete_bytes [1, 2, 3, 4, 5, 6, 7, 0] 7 12345678901234567).2.1 ∧
    (random_delete_bytes [1, 2, 3, 4, 5, 6, 7, 0] 7 12345678901234567).2.1 ≤ 7 ∧
    ((random_delete_bytes [1, 2, 3, 4, 5, 6, 7, 0] 7 12345678901234567).2.1 < 7 ↔
      (delete_len 7 12345678901234567).1 ≠ 0)) :=
  ⟨by decide, C6_delete_length [1, 2, 3, 4, 5, 6, 7, 0] 7 12345678901234567
    (by decide) (by decide)⟩

/-- C7: for every buffer `b` (the first `len` bytes of the allocation) of length
`len ≥ 2` and every generator state, with `d` the deletion length and `from` the start
offset drawn, `from + d ≤ len`, the new length is `len - d`, it is at least 2 (so the
result is not empty), and the bytes of the result are `b[0..from) ++ b[from+d..len)`. -/
theorem C7_delete_content (ar : List Nat) (len s : Nat) (h : 2 ≤ len) (hl : len < 2 ^ 32)
    (hb : len ≤ ar.length) :
    (delete_from len s).1 + (delete_len len s).1 ≤ len ∧
    (random_delete_bytes ar len s).2.1 = len - (delete_len len s).1 ∧
    2 ≤ (random_delete_bytes ar len s).2.1 ∧
    (random_delete_bytes ar len s).1.take (random_delete_bytes ar len s).2.1 ≠ [] ∧
    (random_delete_bytes ar len s).1.take (random_delete_bytes ar len s).2.1 =
      (ar.take len).take (delete_from len s).1 ++
        (ar.take len).drop ((delete_from len s).1 + (delete_len len s).1) := by
  obtain ⟨h1, h2⟩ := delete_draws len s h hl
  rw [delete_unfold ar len s h]
  dsimp only
  generalize (delete_from len s).1 = f at h2 ⊢
  generalize (delete_len len s).1 = d at h1 h2 ⊢
  have hlen : sub32 len d = len - d := by
    unfold sub32
    omega
  have hn : sub32 (sub32 len f) d = len - (f + d) := by
    unfold sub32
    omega
  have hblk : ((ar.drop (f + d)).take (len - (f + d))).length = len - (f + d) := by
    simp only [List.length_take, List.length_drop]
    omega
  have hsplit : len - d = f + ((ar.drop (f + d)).take (len - (f + d))).length := by
    rw [hblk]
    omega
  have hcont : (memmove ar f (f + d) (len - (f + d))).take (len - d) =
      (ar.take len).take f ++ (ar.take len).drop (f + d) := by
    unfold memmove
    rw [hsplit, blit_take ar f _ (by rw [hblk]; omega)]
    rw [List.take_take, List.drop_take, Nat.min_eq_left (by omega : f ≤ len)]
  rw [hlen, hn]
  refine ⟨h2, rfl, by omega, ?_, hcont⟩
  intro hnil
  have := congrArg List.length hnil
  simp only [List.length_take, List.length_nil, memmove_length] at this
  omega

/-- Witness of C7 on a 7-byte buffer, where 2 bytes are deleted at offset 0. -/
theorem C7_delete_content_witness :
    (2 ≤ 7 ∧ 7 < 2 ^ 32 ∧ 7 ≤ [1, 2, 3, 4, 5, 6, 7, 0].length) ∧
    ((delete_from 7 12345678901234567).1 + (delete_len 7 12345678901234567).1 ≤ 7 ∧
    (random_delete_bytes [1, 2, 3, 4, 5, 6, 7, 0] 7 12345678901234567).2.1 =
      7 - (delete_len 7 12345678901234567).1 ∧
    2 ≤ (random_delete_bytes [1, 2, 3, 4, 5, 6, 7, 0] 7 12345678901234567).2.1 ∧
    (random_delete_bytes [1, 2, 3, 4, 5, 6, 7, 0] 7 12345678901234567).1.take
      (random_delete_bytes [1, 2, 3, 4, 5, 6, 7, 0] 7 12345678901234567).2.1 ≠ [] ∧
    (random_delete_bytes [1, 2, 3, 4, 5, 6, 7, 0] 7 12345678901234567).1.take
      (random_delete_bytes [1, 2, 3, 4, 5, 6, 7, 0] 7 12345678901234567).2.1 =
      ([1, 2, 3, 4, 5, 6, 7, 0].take 7).take (delete_from 7 12345678901234567).1 ++
        ([1, 2, 3, 4, 5, 6, 7, 0].take 7).drop
          ((delete_from 7 12345678901234567).1 + (delete_len 7 12345678901234567).1)) :=
  ⟨⟨by decide, by decide, by decide⟩,
    C7_delete_content [1, 2, 3, 4, 5, 6, 7, 0] 7 12345678901234567
      (by decide) (by decide) (by decide)⟩

/-! ## Growth and the driver in variable-length mode -/

/-- C8: growth cap.  For every buffer whose length exceeds `MAX_STR_LEN` (1048576) and every
generator state, `str_growth` changes nothing: the allocation, `len` and the generator
state are returned as they were. -/
theorem C8_growth_cap (junk : Nat → Nat) (ar : List Nat) (len s : Nat)
    (h : MAX_STR_LEN < len) :
    MAX_STR_LEN = 1048576 ∧ str_growth junk ar len s = (ar, len, s) := by
  refine ⟨by decide, ?_⟩
  unfold str_growth
  have h0 : ¬ len = 0 := by
    intro h0
    rw [h0] at h
    exact Nat.not_lt_zero _ h
  rw [if_neg h0, if_pos h]

/-- Witness of C8 on a buffer of 1048577 bytes (and its sentinel). -/
theorem C8_growth_cap_witness :
    MAX_STR_LEN < 1048577 ∧
    (MAX_STR_LEN = 1048576 ∧
      str_growth (fun _ => 0) (List.replicate 1048578 65) 1048577 4399 =
        (List.replicate 1048578 65, 1048577, 4399)) :=
  ⟨by decide, C8_growth_cap (fun _ => 0) (List.replicate 1048578 65) 1048577 4399 (by decide)⟩

/-- The selector never returns 0. -/
theorem choose_block_len_pos (limit s : Nat) (h : 0 < limit) (hl : limit < 2 ^ 32) :
    1 ≤ (choose_block_len limit s).1 :=
  le_trans (choose_block_min_le limit s h).1 (choose_block_len_range limit s h hl).1

/-- The selector never returns more than `HAVOC_BLK_XL`. -/
theorem choose_block_len_le_XL (limit s : Nat) (h : 0 < limit) (hl : limit < 2 ^ 32) :
    (choose_block_len limit s).1 ≤ HAVOC_BLK_XL :=
  le_trans (choose_block_len_range limit s h hl).2 (choose_block_min_le limit s h).2.2.2

/-- One growth step below the cap adds between 1 and `HAVOC_BLK_XL` bytes. -/
theorem str_growth_len (junk : Nat → Nat) (ar : List Nat) (len s : Nat)
    (h : 1 ≤ len) (hm : len ≤ MAX_STR_LEN) :
    len + 1 ≤ (str_growth junk ar len s).2.1 ∧
    (str_growth junk ar len s).2.1 ≤ len + HAVOC_BLK_XL := by
  have hm' : len ≤ 1048576 := hm
  have hl : len < 2 ^ 32 := by omega
  unfold str_growth
  rw [if_neg (by omega), if_neg (by omega)]
  dsimp only
  by_cases hc : (chain_rng_rand_range 4 s).1 % 256 ≠ 0
  · simp only [if_pos hc]
    have h1 := choose_block_len_pos len (chain_rng_rand_range 4 s).2 h hl
    have h2 := choose_block_len_le_XL len (chain_rng_rand_range 4 s).2 h hl
    generalize (choose_block_len len (chain_rng_rand_range 4 s).2).1 = g at h1 h2 ⊢
    unfold HAVOC_BLK_XL at *
    unfold add32
    omega
  · simp only [if_neg hc]
    have h1 := choose_block_len_pos HAVOC_BLK_XL (chain_rng_rand_range 4 s).2
      (by decide) (by decide)
    have h2 := choose_block_len_le_XL HAVOC_BLK_XL (chain_rng_rand_range 4 s).2
      (by decide) (by decide)
    generalize (choose_block_len HAVOC_BLK_XL (chain_rng_rand_range 4 s).2).1 = g at h1 h2 ⊢
    unfold HAVOC_BLK_XL at *
    unfold add32
    omega

/-- A deletion never increases `len`. -/
theorem delete_len_le (ar : List Nat) (len s : Nat) (hl : len < 2 ^ 32) :
    (random_delete_bytes ar len s).2.1 ≤ len := by
  by_cases h : 2 ≤ len
  · obtain ⟨h1, _⟩ := delete_draws len s h hl
    rw [delete_unfold ar len s h]
    dsimp only
    generalize (delete_len len s).1 = d at h1 ⊢
    unfold sub32
    omega
  · unfold random_delete_bytes
    rw [if_pos (by omega)]

/-- Growth from any length keeps `len` at or below the cap plus `HAVOC_BLK_XL`. -/
theorem str_growth_bound (junk : Nat → Nat) (ar : List Nat) (len s : Nat)
    (h : len ≤ MAX_STR_LEN + HAVOC_BLK_XL) :
    (str_growth junk ar len s).2.1 ≤ MAX_STR_LEN + HAVOC_BLK_XL := by
  by_cases h0 : len = 0
  · unfold str_growth
    rw [if_pos h0]
    exact h
  · by_cases hm : len ≤ MAX_STR_LEN
    · have := (str_growth_len junk ar len s (by omega) hm).2
      omega
    · unfold str_growth
      rw [if_neg h0, if_pos (by omega)]
      exact h

/-- In variable-length mode one iteration keeps `len` at or below the cap plus
`HAVOC_BLK_XL`. -/
theorem havoc_step_str_bound (env : Env) (k : Nat) (ar : List Nat) (len s : Nat)
    (h : len ≤ MAX_STR_LEN + HAVOC_BLK_XL) :
    (havoc_step env true k ar len s).2.1 ≤ MAX_STR_LEN + HAVOC_BLK_XL := by
  have hl : len < 2 ^ 32 := by
    have : MAX_STR_LEN + HAVOC_BLK_XL = 1081344 := by decide
    omega
  unfold havoc_step
  simp only [if_true]
  split
  · exact h
  · exact h
  · exact h
  · exact h
  · exact h
  · exact h
  · exact h
  · exact h
  · exact h
  · exact le_trans (delete_len_le _ _ _ hl) h
  · exact str_growth_bound _ _ _ _ h
  · exact h

theorem havoc_loop_str_bound (env : Env) (n : Nat) :
    ∀ (k : Nat) (ar : List Nat) (len s : Nat), len ≤ MAX_STR_LEN + HAVOC_BLK_XL →
      (havoc_loop env true n k ar len s).2.1 ≤ MAX_STR_LEN + HAVOC_BLK_XL := by
  induction n with
  | zero => intro k ar len s h; exact h
  | succ n ih =>
    intro k ar len s h
    unfold havoc_loop
    dsimp only
    exact ih _ _ _ _ (havoc_step_str_bound env k ar len s h)

/-- C9: variable-length output bound.  For every input of length `len ≤ MAX_STR_LEN` and
every generator state, the length `havoc` returns with `is_str = true` is at most
`MAX_STR_LEN + HAVOC_BLK_XL` (1048576 + 32768); a single growth step from a length in
`[1, MAX_STR_LEN]` adds at most 32768 bytes, in the clone and in the constant-fill branch;
and the bound is kept by any number of iterations from any iteration on. -/
theorem C9_havoc_str_bound (env : Env) (ar : List Nat) (len s : Nat)
    (h : len ≤ MAX_STR_LEN) :
    (havoc env ar len true s).2.1 ≤ MAX_STR_LEN + HAVOC_BLK_XL ∧
    MAX_STR_LEN + HAVOC_BLK_XL = 1048576 + 32768 ∧
    (∀ (junk : Nat → Nat) (ar' : List Nat) (len' s' : Nat), 1 ≤ len' → len' ≤ MAX_STR_LEN →
      (str_growth junk ar' len' s').2.1 ≤ len' + 32768) ∧
    (∀ (n k : Nat) (ar' : List Nat) (len' s' : Nat), len' ≤ MAX_STR_LEN + HAVOC_BLK_XL →
      (havoc_loop env true n k ar' len' s').2.1 ≤ MAX_STR_LEN + HAVOC_BLK_XL) := by
  refine ⟨?_, by decide, ?_, ?_⟩
  · unfold havoc
    exact havoc_loop_str_bound env _ 0 ar len _ (Nat.le_add_right_of_le h)
  · intro junk ar' len' s' h1 h2
    exact (str_growth_len junk ar' len' s' h1 h2).2
  · intro n k ar' len' s' h1
    exact havoc_loop_str_bound env n k ar' len' s' h1

/-- Witness of C9 on the 4-byte string `abcd`. -/
theorem C9_havoc_str_bound_witness :
    4 ≤ MAX_STR_LEN ∧
    ((havoc ⟨fun _ _ => 170, fun _ => 0, fun _ => 0⟩ [97, 98, 99, 100, 0] 4 true 4399).2.1 ≤
      MAX_STR_LEN + HAVOC_BLK_XL ∧
    MAX_STR_LEN + HAVOC_BLK_XL = 1048576 + 32768 ∧
    (∀ (junk : Nat → Nat) (ar' : List Nat) (len' s' : Nat), 1 ≤ len' → len' ≤ MAX_STR_LEN →
      (str_growth junk ar' len' s').2.1 ≤ len' + 32768) ∧
    (∀ (n k : Nat) (ar' : List Nat) (len' s' : Nat), len' ≤ MAX_STR_LEN + HAVOC_BLK_XL →
      (havoc_loop ⟨fun _ _ => 170, fun _ => 0, fun _ => 0⟩ true n k ar' len' s').2.1 ≤
        MAX_STR_LEN + HAVOC_BLK_XL)) :=
  ⟨by decide,
    C9_havoc_str_bound ⟨fun _ _ => 170, fun _ => 0, fun _ => 0⟩ [97, 98, 99, 100, 0] 4 4399
      (by decide)⟩

/-! ## The bit flip -/

theorem bit_diff8_self (a : Nat) : bit_diff8 a a = 0 := by
  unfold bit_diff8
  rw [Nat.xor_self]
  simp

theorem bit_diff_self (ar : List Nat) : bit_diff ar ar = 0 := by
  induction ar with
  | nil => rfl
  | cons a t ih =>
    unfold bit_diff at ih ⊢
    simp only [List.zipWith_cons_cons, List.sum_cons, ih, bit_diff8_self]

/-- A byte and its XOR with a single-bit mask differ in exactly one bit. -/
theorem bit_diff8_xor_pow (a k : Nat) (hk : k < 8) : bit_diff8 a (a ^^^ 2 ^ k) = 1 := by
  unfold bit_diff8
  rw [← Nat.xor_assoc, Nat.xor_self, Nat.zero_xor]
  interval_cases k <;> decide

/-- Replacing one byte inside the buffer changes as many bits as that byte changes. -/
theorem bit_diff_set (ar : List Nat) :
    ∀ (i v : Nat), i < ar.length → bit_diff ar (ar.set i v) = bit_diff8 (load8 ar i) v := by
  induction ar with
  | nil => intro i v h; exact absurd h (Nat.not_lt_zero _)
  | cons a t ih =>
    intro i v h
    cases i with
    | zero =>
      have := bit_diff_self t
      unfold bit_diff at this ⊢
      simp only [List.set_cons_zero, List.zipWith_cons_cons, List.sum_cons, this, load8,
        List.getD_cons_zero, Nat.add_zero]
    | succ j =>
      have h' : j < t.length := Nat.lt_of_succ_lt_succ h
      have := ih j v h'
      unfold bit_diff at this ⊢
      simp only [load8] at this ⊢
      simp only [List.set_cons_succ, List.zipWith_cons_cons, List.sum_cons, this,
        bit_diff8_self, List.getD_cons_succ, Nat.zero_add]

/-- The mask `128 >> (p & 7)` is a single bit of a byte. -/
theorem flip_mask (p : Nat) : ∃ k, k < 8 ∧ 128 >>> (p &&& 7) = 2 ^ k := by
  have h : p &&& 7 ≤ 7 := Nat.and_le_right
  generalize p &&& 7 = j at h
  interval_cases j
  · exact ⟨7, by decide, by decide⟩
  · exact ⟨6, by decide, by decide⟩
  · exact ⟨5, by decide, by decide⟩
  · exact ⟨4, by decide, by decide⟩
  · exact ⟨3, by decide, by decide⟩
  · exact ⟨2, by decide, by decide⟩
  · exact ⟨1, by decide, by decide⟩
  · exact ⟨0, by decide, by decide⟩

/-- C10: single-bit flip.  For every buffer of length `len ≥ 1` (held in an allocation of at
least `len` bytes) and every generator state, `bitflip1` keeps the size, replaces one byte
at an index below `len` by its XOR with a single-bit mask, so that the result differs from
the input in exactly one bit; on the all-zero 1-byte buffer the resulting byte is one of
`0x01, 0x02, 0x04, 0x08, 0x10, 0x20, 0x40, 0x80`. -/
theorem C10_bitflip1_single_bit (ar : List Nat) (len s : Nat) (h : 1 ≤ len)
    (hb : len ≤ ar.length) :
    (bitflip1 ar len s).1.length = ar.length ∧
    (∃ i k, i < len ∧ k < 8 ∧ (bitflip1 ar len s).1 = ar.set i (load8 ar i ^^^ 2 ^ k)) ∧
    bit_diff ar (bitflip1 ar len s).1 = 1 ∧
    (∀ s', ∃ b, (bitflip1 [0] 1 s').1 = [b] ∧
      b ∈ [0x01, 0x02, 0x04, 0x08, 0x10, 0x20, 0x40, 0x80]) := by
  have hp := rand_range_le_pred len s
  have hi : (chain_rng_rand_range len s).1 >>> 3 < len := by
    rw [Nat.shiftRight_eq_div_pow]
    have := Nat.div_le_self (chain_rng_rand_range len s).1 (2 ^ 3)
    omega
  obtain ⟨k, hk, hmask⟩ := flip_mask (chain_rng_rand_range len s).1
  have hout : (bitflip1 ar len s).1 =
      ar.set ((chain_rng_rand_range len s).1 >>> 3)
        (load8 ar ((chain_rng_rand_range len s).1 >>> 3) ^^^ 2 ^ k) := by
    unfold bitflip1
    rw [if_neg (by omega), ← hmask]
  refine ⟨bitflip1_length ar len s, ⟨_, k, hi, hk, hout⟩, ?_, ?_⟩
  · rw [hout, bit_diff_set ar _ _ (by omega)]
    exact bit_diff8_xor_pow _ k hk
  · intro s'
    refine ⟨0x80, ?_, by decide⟩
    unfold bitflip1
    rw [if_neg (by decide), rand_range_degenerate 1 s' (by decide)]
    dsimp only
    decide

/-- Witness of C10 on the 4-byte buffer of the integer 0. -/
theorem C10_bitflip1_single_bit_witness :
    (1 ≤ 4 ∧ 4 ≤ [0, 0, 0, 0].length) ∧
    ((bitflip1 [0, 0, 0, 0] 4 12345678901234567).1.length = [0, 0, 0, 0].length ∧
    (∃ i k, i < 4 ∧ k < 8 ∧ (bitflip1 [0, 0, 0, 0] 4 12345678901234567).1 =
      [0, 0, 0, 0].set i (load8 [0, 0, 0, 0] i ^^^ 2 ^ k)) ∧
    bit_diff [0, 0, 0, 0] (bitflip1 [0, 0, 0, 0] 4 12345678901234567).1 = 1 ∧
    (∀ s', ∃ b, (bitflip1 [0] 1 s').1 = [b] ∧
      b ∈ [0x01, 0x02, 0x04, 0x08, 0x10, 0x20, 0x40, 0x80])) :=
  ⟨⟨by decide, by decide⟩,
    C10_bitflip1_single_bit [0, 0, 0, 0] 4 12345678901234567 (by decide) (by decide)⟩

/-! ## The operator set of the driver -/

/-- C11 as stated fails: from the state 4000000000 the index drawn in fixed-size mode is 8
(so it is not drawn from 8 operators) and the iteration applies the region operator
`bytes_random`, which rewrites the 4-byte buffer; in variable-length mode the index drawn
from the same state is 10, and from the state 3200000000 it is 8, again `bytes_random`. -/
theorem C11_counterexample :
    (havoc_op false 4000000000).1 = 8 ∧
    havoc_step ⟨fun _ _ => 0, fun _ => 0, fun _ => 0⟩ false 0 [1, 2, 3, 4] 4 4000000000 =
      ((bytes_random [1, 2, 3, 4] 4 (havoc_op false 4000000000).2).1, 4,
        (bytes_random [1, 2, 3, 4] 4 (havoc_op false 4000000000).2).2) ∧
    (havoc_step ⟨fun _ _ => 0, fun _ => 0, fun _ => 0⟩ false 0 [1, 2, 3, 4] 4 4000000000).1 ≠
      [1, 2, 3, 4] ∧
    (havoc_op true 4000000000).1 = 10 ∧
    (havoc_op true 3200000000).1 = 8 := by
  decide

/-- The operator index is below the bound of its draw. -/
theorem havoc_op_lt (is_str : Bool) (s : Nat) :
    (havoc_op is_str s).1 < (if is_str then 11 else 9) := by
  unfold havoc_op
  dsimp only
  refine lt_of_le_of_lt (Nat.mod_le _ _) (rand_range_lt _ s ?_)
  cases is_str <;> simp

/-- The operator index is the value of the draw itself: the conversion to `u16` keeps it. -/
theorem havoc_op_eq (s : Nat) :
    havoc_op false s = chain_rng_rand_range 9 s ∧ havoc_op true s = chain_rng_rand_range 11 s := by
  have h9 := rand_range_lt 9 s (by omega)
  have h11 := rand_range_lt 11 s (by omega)
  unfold havoc_op
  simp only [Bool.false_eq_true, if_false, if_true]
  rw [Nat.mod_eq_of_lt (by omega), Nat.mod_eq_of_lt (by omega)]
  exact ⟨rfl, rfl⟩

/-- Every index below 9 is drawn from some state in fixed-size mode, and every index below
11 in variable-length mode. -/
theorem havoc_op_reached :
    (∀ i, i < 9 → (havoc_op false (i * 477218589)).1 = i) ∧
    (∀ i, i < 11 → (havoc_op true (i * 390451573)).1 = i) := by
  constructor
  · intro i hi
    interval_cases i <;> decide
  · intro i hi
    interval_cases i <;> decide

/-- C11, amended: at every iteration `havoc` draws the operator index with
`chain_rng_rand_range(9)` when `is_str = false` and with `chain_rng_rand_range(11)` when
`is_str = true`, so from 9 and from 11 operators: the index is below 9, respectively 11,
and each of these values is drawn from some state.  The index selects the operator
applied: 0 to 7 the eight primitives (`bitflip1`, `byte_interesting`, `word_interesting`,
`dword_interesting`, `byte_arith`, `word_arith`, `dword_arith`, `byte_random`), 8 the region
operator `bytes_random`, in both modes, and in variable-length mode 9
`random_delete_bytes` and 10 `str_growth`; the operator runs from the state left by the
draw.  In fixed-size mode the iteration is therefore one of the first nine, never deletion
or growth. -/
theorem C11_havoc_operator_set (env : Env) (k : Nat) (ar : List Nat) (len s : Nat) :
    havoc_op false s = chain_rng_rand_range 9 s ∧
    havoc_op true s = chain_rng_rand_range 11 s ∧
    (havoc_op false s).1 < 9 ∧ (havoc_op true s).1 < 11 ∧
    (∀ i, i < 9 → ∃ s', (havoc_op false s').1 = i) ∧
    (∀ i, i < 11 → ∃ s', (havoc_op true s').1 = i) ∧
    ((havoc_op false s).1 = 0 →
      havoc_step env false k ar len s =
        ((bitflip1 ar len (havoc_op false s).2).1, len,
          (bitflip1 ar len (havoc_op false s).2).2)) ∧
    ((havoc_op false s).1 = 1 →
      havoc_step env false k ar len s =
        ((byte_interesting ar len (havoc_op false s).2).1, len,
          (byte_interesting ar len (havoc_op false s).2).2)) ∧
    ((havoc_op false s).1 = 2 →
      havoc_step env false k ar len s =
        ((word_interesting env.wild16 ar len (havoc_op false s).2).1, len,
          (word_interesting env.wild16 ar len (havoc_op false s).2).2)) ∧
    ((havoc_op false s).1 = 3 →
      havoc_step env false k ar len s =
        ((dword_interesting env.wild32 ar len (havoc_op false s).2).1, len,
          (dword_interesting env.wild32 ar len (havoc_op false s).2).2)) ∧
    ((havoc_op false s).1 = 4 →
      havoc_step env false k ar len s =
        ((byte_arith ar len (havoc_op false s).2).1, len,
          (byte_arith ar len (havoc_op false s).2).2)) ∧
    ((havoc_op false s).1 = 5 →
      havoc_step env false k ar len s =
        ((word_arith ar len (havoc_op false s).2).1, len,
          (word_arith ar len (havoc_op false s).2).2)) ∧
    ((havoc_op false s).1 = 6 →
      havoc_step env false k ar len s =
        ((dword_arith ar len (havoc_op false s).2).1, len,
          (dword_arith ar len (havoc_op false s).2).2)) ∧
    ((havoc_op false s).1 = 7 →
      havoc_step env false k ar len s =
        ((byte_random ar len (havoc_op false s).2).1, len,
          (byte_random ar len (havoc_op false s).2).2)) ∧
    ((havoc_op false s).1 = 8 →
      havoc_step env false k ar len s =
        ((bytes_random ar len (havoc_op false s).2).1, len,
          (bytes_random ar len (havoc_op false s).2).2)) ∧
    ((havoc_op true s).1 = 0 →
      havoc_step env true k ar len s =
        ((bitflip1 ar len (havoc_op true s).2).1, len,
          (bitflip1 ar len (havoc_op true s).2).2)) ∧
    ((havoc_op true s).1 = 1 →
      havoc_step env true k ar len s =
        ((byte_interesting ar len (havoc_op true s).2).1, len,
          (byte_interesting ar len (havoc_op true s).2).2)) ∧
    ((havoc_op true s).1 = 2 →
      havoc_step env true k ar len s =
        ((word_interesting env.wild16 ar len (havoc_op true s).2).1, len,
          (word_interesting env.wild16 ar len (havoc_op true s).2).2)) ∧
    ((havoc_op true s).1 = 3 →
      havoc_step env true k ar len s =
        ((dword_interesting env.wild32 ar len (havoc_op true s).2).1, len,
          (dword_interesting env.wild32 ar len (havoc_op true s).2).2)) ∧
    ((havoc_op true s).1 = 4 →
      havoc_step env true k ar len s =
        ((byte_arith ar len (havoc_op true s).2).1, len,
          (byte_arith ar len (havoc_op true s).2).2)) ∧
    ((havoc_op true s).1 = 5 →
      havoc_step env true k ar len s =
        ((word_arith ar len (havoc_op true s).2).1, len,
          (word_arith ar len (havoc_op true s).2).2)) ∧
    ((havoc_op true s).1 = 6 →
      havoc_step env true k ar len s =
        ((dword_arith ar len (havoc_op true s).2).1, len,
          (dword_arith ar len (havoc_op true s).2).2)) ∧
    ((havoc_op true s).1 = 7 →
      havoc_step env true k ar len s =
        ((byte_random ar len (havoc_op true s).2).1, len,
          (byte_random ar len (havoc_op true s).2).2)) ∧
    ((havoc_op true s).1 = 8 →
      havoc_step env true k ar len s =
        ((bytes_random ar len (havoc_op true s).2).1, len,
          (bytes_random ar len (havoc_op true s).2).2)) ∧
    ((havoc_op true s).1 = 9 →
      havoc_step env true k ar len s = random_delete_bytes ar len (havoc_op true s).2) ∧
    ((havoc_op true s).1 = 10 →
      havoc_step env true k ar len s = str_growth (env.fresh k) ar len (havoc_op true s).2) := by
  have h9 := havoc_op_lt false s
  have h11 := havoc_op_lt true s
  simp only [Bool.false_eq_true, if_false, if_true] at h9 h11
  refine ⟨(havoc_op_eq s).1, (havoc_op_eq s).2, h9, h11,
    fun i hi => ⟨_, havoc_op_reached.1 i hi⟩, fun i hi => ⟨_, havoc_op_reached.2 i hi⟩,
    ?_, ?_, ?_, ?_, ?_, ?_, ?_, ?_, ?_, ?_, ?_, ?_, ?_, ?_, ?_, ?_, ?_, ?_, ?_, ?_⟩
  all_goals intro h
  all_goals unfold havoc_step
  all_goals unfold havoc_op at h ⊢
  all_goals simp only [Bool.false_eq_true, if_false, if_true] at h ⊢
  all_goals rw [h]

/-! ## Unmet length preconditions -/

/-- C12: no-op on an unmet precondition.  On a buffer of length 0, `bitflip1`,
`byte_interesting`, `byte_arith`, `byte_random` and `str_growth`; on a buffer of length
`len2 < 2`, `word_interesting`, `word_arith`, `bytes_random` and `random_delete_bytes`; on a
buffer of length `len4 < 4`, `dword_interesting` and `dword_arith`: each returns the
allocation, the length and the generator state as they were. -/
theorem C12_noop_below_min_length (junk : Nat → Nat) (wild : Nat → Int) (ar : List Nat)
    (len2 len4 s : Nat) (h2 : len2 < 2) (h4 : len4 < 4) :
    bitflip1 ar 0 s = (ar, s) ∧ byte_interesting ar 0 s = (ar, s) ∧
    byte_arith ar 0 s = (ar, s) ∧ byte_random ar 0 s = (ar, s) ∧
    str_growth junk ar 0 s = (ar, 0, s) ∧
    word_interesting wild ar len2 s = (ar, s) ∧ word_arith ar len2 s = (ar, s) ∧
    bytes_random ar len2 s = (ar, s) ∧ random_delete_bytes ar len2 s = (ar, len2, s) ∧
    dword_interesting wild ar len4 s = (ar, s) ∧ dword_arith ar len4 s = (ar, s) := by
  refine ⟨?_, ?_, ?_, ?_, ?_, ?_, ?_, ?_, ?_, ?_, ?_⟩
  · unfold bitflip1; rw [if_pos rfl]
  · unfold byte_interesting; rw [if_pos rfl]
  · unfold byte_arith; rw [if_pos rfl]
  · unfold byte_random; rw [if_pos rfl]
  · unfold str_growth; rw [if_pos rfl]
  · unfold word_interesting; rw [if_pos h2]
  · unfold word_arith; rw [if_pos h2]
  · unfold bytes_random; rw [if_pos h2]
  · unfold random_delete_bytes; rw [if_pos h2]
  · unfold dword_interesting; rw [if_pos h4]
  · unfold dword_arith; rw [if_pos h4]

/-- Witness of C12 on a 1-byte buffer (too short for the word operators) and a 3-byte
length (too short for the dword operators). -/
theorem C12_noop_below_min_length_witness :
    (1 < 2 ∧ 3 < 4) ∧
    (bitflip1 [7, 8, 9, 0] 0 4399 = ([7, 8, 9, 0], 4399) ∧
    byte_interesting [7, 8, 9, 0] 0 4399 = ([7, 8, 9, 0], 4399) ∧
    byte_arith [7, 8, 9, 0] 0 4399 = ([7, 8, 9, 0], 4399) ∧
    byte_random [7, 8, 9, 0] 0 4399 = ([7, 8, 9, 0], 4399) ∧
    str_growth (fun _ => 0) [7, 8, 9, 0] 0 4399 = ([7, 8, 9, 0], 0, 4399) ∧
    word_interesting (fun _ => 0) [7, 8, 9, 0] 1 4399 = ([7, 8, 9, 0], 4399) ∧
    word_arith [7, 8, 9, 0] 1 4399 = ([7, 8, 9, 0], 4399) ∧
    bytes_random [7, 8, 9, 0] 1 4399 = ([7, 8, 9, 0], 4399) ∧
    random_delete_bytes [7, 8, 9, 0] 1 4399 = ([7, 8, 9, 0], 1, 4399) ∧
    dword_interesting (fun _ => 0) [7, 8, 9, 0] 3 4399 = ([7, 8, 9, 0], 4399) ∧
    dword_arith [7, 8, 9, 0] 3 4399 = ([7, 8, 9, 0], 4399)) :=
  ⟨⟨by decide, by decide⟩,
    C12_noop_below_min_length (fun _ => 0) (fun _ => 0) [7, 8, 9, 0] 1 3 4399
      (by decide) (by decide)⟩

/-! ## The bounded draw as a formula -/

/-- C13 as stated fails: from the state 6442450944 (1.5 * 2^32) the call
`chain_rng_rand_range(3)` returns 1, while `floor(s * max / 2^64) mod max` is 0; the value
of `result` before the final modulo is 4, which is not below `max = 3`, so the modulo is not
redundant. -/
theorem C13_counterexample :
    (chain_rng_rand_range 3 6442450944).1 = 1 ∧
    (6442450944 * 3 / 2 ^ 64) % 3 = 0 ∧
    (chain_rng_rand_range 3 6442450944).1 ≠ (6442450944 * 3 / 2 ^ 64) % 3 ∧
    (chain_rng_rand_range 3 6442450944).1 ≠ (6442450944 * 3) % 2 ^ 64 / 2 ^ 32 ∧
    ¬ ((6442450944 * 3) % 2 ^ 64 / 2 ^ 32 < 3) := by
  decide

/-- C13, amended: for every `max > 1` and every state `s`, `chain_rng_rand_range(max)`
returns `((s * max mod 2^64) div 2^32) mod max`, the upper 32 bits of the product truncated
to 64 bits, reduced modulo `max`. -/
theorem C13_rand_range_formula (max s : Nat) (h : 1 < max) :
    (chain_rng_rand_range max s).1 = ((s * max) % 2 ^ 64 / 2 ^ 32) % max := by
  unfold chain_rng_rand_range
  rw [if_neg (by omega)]
  dsimp only
  rw [Nat.shiftRight_eq_div_pow]
  have h1 : (s * max) % 2 ^ 64 / 2 ^ 32 < 2 ^ 32 := by
    have := Nat.mod_lt (s * max) (by decide : 0 < 2 ^ 64)
    omega
  rw [Nat.mod_eq_of_lt h1]

/-- Witness of the amended C13 at the bound 3 and the state 6442450944. -/
theorem C13_rand_range_formula_witness :
    1 < 3 ∧
    (chain_rng_rand_range 3 6442450944).1 = ((6442450944 * 3) % 2 ^ 64 / 2 ^ 32) % 3 :=
  ⟨by decide, C13_rand_range_formula 3 6442450944 (by decide)⟩

/-! ## Arithmetic nudges and interesting values at concrete inputs -/

/-- C14 at a failing input: from the state 4179000537 `word_arith` on the 2-byte buffer
holding the 16-bit value 256 draws `n = 35` and takes the native-order subtraction, which
subtracts `1 + n = 36`: the window becomes 220.  No delta `d` in `[1, 35]` gives 220 by
any of the four forms `w + d`, `w - d`, `SWAP16(SWAP16(w) + d)`, `SWAP16(SWAP16(w) - d)`.
`dword_arith` does the same on the 4-byte buffer holding 256. -/
theorem C14_arith_delta_36 :
    load16 [0, 1, 0] 0 = 256 ∧
    (chain_rng_rand_range ARITH_MAX 4179000537).1 = 34 ∧
    (word_arith [0, 1, 0] 2 4179000537).1 = [220, 0, 0] ∧
    load16 (word_arith [0, 1, 0] 2 4179000537).1 0 = 256 - 36 ∧
    (∀ d ∈ List.range' 1 35,
      (256 + d) % 2 ^ 16 ≠ 220 ∧ (256 + 2 ^ 16 - d) % 2 ^ 16 ≠ 220 ∧
      SWAP16 ((SWAP16 256 + d) % 2 ^ 16) ≠ 220 ∧
      SWAP16 ((SWAP16 256 + 2 ^ 16 - d) % 2 ^ 16) ≠ 220) ∧
    load32 [0, 1, 0, 0, 0] 0 = 256 ∧
    (dword_arith [0, 1, 0, 0, 0] 4 4179000537).1 = [220, 0, 0, 0, 0] ∧
    load32 (dword_arith [0, 1, 0, 0, 0] 4 4179000537).1 0 = 256 - 36 := by
  decide

/-- C15 at a failing input: from the state 4000000000 `word_interesting` draws the index 35
with the bound `sizeof(interesting_16) = 38`, behind the 19 entries of `interesting_16`, and
`dword_interesting` draws the index 100 with the bound `sizeof(interesting_32) = 108`, behind
the 27 entries of `interesting_32`.  The value written is what lies behind the table
(here 4660), not an entry of the table nor the byte swap of one. -/
theorem C15_table_index_out_of_range :
    sizeof_interesting_16 = 38 ∧ interesting_16.length = 19 ∧
    (chain_rng_rand_range sizeof_interesting_16 4000000000).1 = 35 ∧
    interesting_16.get? 35 = none ∧
    load16 (word_interesting (fun _ => 4660) [0, 0, 0] 2 4000000000).1 0 ∉
      interesting_16.map toU16 ++ interesting_16.map (fun x => SWAP16 (toU16 x)) ∧
    sizeof_interesting_32 = 108 ∧ interesting_32.length = 27 ∧
    (chain_rng_rand_range sizeof_interesting_32 4000000000).1 = 100 ∧
    interesting_32.get? 100 = none ∧
    load32 (dword_interesting (fun _ => 4660) [0, 0, 0, 0, 0] 4 4000000000).1 0 ∉
      interesting_32.map toU32 ++ interesting_32.map (fun x => SWAP32 (toU32 x)) := by
  decide

/-! ## Block writes -/

/-- The bytes before a block written inside the allocation are unchanged. -/
theorem blit_head (ar : List Nat) (dst : Nat) (blk : List Nat)
    (h : dst + blk.length ≤ ar.length) : (blit ar dst blk).take dst = ar.take dst := by
  rw [blit_eq ar dst blk h, List.append_assoc]
  exact List.take_left' (by rw [List.length_take]; omega)

/-- The bytes of the allocation at the place of a block written inside it are the block. -/
theorem blit_block (ar : List Nat) (dst : Nat) (blk : List Nat)
    (h : dst + blk.length ≤ ar.length) :
    ((blit ar dst blk).drop dst).take blk.length = blk := by
  rw [blit_eq ar dst blk h, List.append_assoc]
  rw [List.drop_left' (by rw [List.length_take]; omega)]
  exact List.take_left' rfl

/-- The bytes behind a block written inside the allocation are unchanged. -/
theorem blit_tail (ar : List Nat) (dst : Nat) (blk : List Nat)
    (h : dst + blk.length ≤ ar.length) :
    (blit ar dst blk).drop (dst + blk.length) = ar.drop (dst + blk.length) := by
  rw [blit_eq ar dst blk h]
  exact List.drop_left' (by rw [List.length_append, List.length_take]; omega)

/-- A byte outside a block written inside the allocation is unchanged. -/
theorem blit_outside (ar : List Nat) (dst : Nat) (blk : List Nat) (i : Nat)
    (h : dst + blk.length ≤ ar.length) (hi : i < dst ∨ dst + blk.length ≤ i) :
    load8 (blit ar dst blk) i = load8 ar i := by
  unfold load8
  rw [List.getD_eq_getElem?_getD, List.getD_eq_getElem?_getD]
  congr 1
  rcases hi with hi | hi
  · have h1 : ((blit ar dst blk).take dst)[i]? = (ar.take dst)[i]? := by
      rw [blit_head ar dst blk h]
    rw [List.getElem?_take, List.getElem?_take, if_pos hi, if_pos hi] at h1
    exact h1
  · have h1 : ((blit ar dst blk).drop (dst + blk.length))[i - (dst + blk.length)]? =
        (ar.drop (dst + blk.length))[i - (dst + blk.length)]? := by
      rw [blit_tail ar dst blk h]
    rw [List.getElem?_drop, List.getElem?_drop] at h1
    rw [show dst + blk.length + (i - (dst + blk.length)) = i by omega] at h1
    exact h1

/-! ## Block copy and overwrite -/

/-- The selector returns at most its limit. -/
theorem choose_block_len_le_limit (limit s : Nat) (h : 0 < limit) (hl : limit < 2 ^ 32) :
    (choose_block_len limit s).1 ≤ limit :=
  le_trans (choose_block_len_range limit s h hl).2 (choose_block_min_le limit s h).2.2.1

/-- The draws of `bytes_random`: the block length is in `[1, len - 1]` and both blocks lie
inside the buffer. -/
theorem copy_draws (len s : Nat) (h : 2 ≤ len) (hl : len < 2 ^ 32) :
    1 ≤ (copy_len len s).1 ∧ (copy_len len s).1 ≤ len - 1 ∧
    (copy_from len s).1 + (copy_len len s).1 ≤ len ∧
    (copy_to len s).1 + (copy_len len s).1 ≤ len := by
  have hs : sub32 len 1 = len - 1 := by
    unfold sub32
    omega
  have h1 : 1 ≤ (copy_len len s).1 := by
    unfold copy_len
    rw [hs]
    exact choose_block_len_pos (len - 1) s (by omega) (by omega)
  have h2 : (copy_len len s).1 ≤ len - 1 := by
    unfold copy_len
    rw [hs]
    exact choose_block_len_le_limit (len - 1) s (by omega) (by omega)
  have h3 := rand_range_le_pred (add32 (sub32 len (copy_len len s).1) 1) (copy_len len s).2
  have h4 := rand_range_le_pred (add32 (sub32 len (copy_len len s).1) 1) (copy_from len s).2
  refine ⟨h1, h2, ?_, ?_⟩
  · unfold copy_from
    generalize (chain_rng_rand_range (add32 (sub32 len (copy_len len s).1) 1)
      (copy_len len s).2).1 = f at h3 ⊢
    generalize (copy_len len s).1 = c at h1 h2 h3 ⊢
    unfold add32 sub32 at h3
    omega
  · unfold copy_to
    generalize (chain_rng_rand_range (add32 (sub32 len (copy_len len s).1) 1)
      (copy_from len s).2).1 = t at h4 ⊢
    generalize (copy_len len s).1 = c at h1 h2 h4 ⊢
    unfold add32 sub32 at h4
    omega

/-- The result of `bytes_random` on a buffer of at least 2 bytes, by branch. -/
theorem bytes_random_unfold (ar : List Nat) (len s : Nat) (h : 2 ≤ len) :
    bytes_random ar len s =
      if (copy_sel len s).1 ≠ 0 then
        if (copy_from len s).1 ≠ (copy_to len s).1 then
          (memmove ar (copy_to len s).1 (copy_from len s).1 (copy_len len s).1,
            (copy_sel len s).2)
        else (ar, (copy_sel len s).2)
      else
        (memset ar (copy_to len s).1 (copy_fill ar len s).1 (copy_len len s).1,
          (copy_fill ar len s).2) := by
  unfold bytes_random
  rw [if_neg (by omega)]
  rfl

/-- The three outcomes of `bytes_random`, for any values of the draws that keep both blocks
inside the allocation. -/
theorem copy_outcome (ar : List Nat) (sel f t c v ss sf : Nat)
    (h3 : f + c ≤ ar.length) (h4 : t + c ≤ ar.length) :
    (∀ i, i < t ∨ t + c ≤ i →
      load8 (if sel ≠ 0 then if f ≠ t then (memmove ar t f c, ss) else (ar, ss)
        else (memset ar t v c, sf)).1 i = load8 ar i) ∧
    (sel ≠ 0 →
      ((if sel ≠ 0 then if f ≠ t then (memmove ar t f c, ss) else (ar, ss)
        else (memset ar t v c, sf)).1.drop t).take c = (ar.drop f).take c) ∧
    (sel = 0 →
      ((if sel ≠ 0 then if f ≠ t then (memmove ar t f c, ss) else (ar, ss)
        else (memset ar t v c, sf)).1.drop t).take c = List.replicate c (v % 256)) := by
  have hsrc : ((ar.drop f).take c).length = c := by
    rw [List.length_take, List.length_drop]
    omega
  refine ⟨?_, ?_, ?_⟩
  · intro i hi
    by_cases hsel : sel ≠ 0
    · rw [if_pos hsel]
      by_cases hft : f ≠ t
      · rw [if_pos hft]
        unfold memmove
        exact blit_outside ar t _ i (by rw [hsrc]; omega) (by rw [hsrc]; exact hi)
      · rw [if_neg hft]
    · rw [if_neg hsel]
      unfold memset
      exact blit_outside ar t _ i (by rw [List.length_replicate]; omega)
        (by rw [List.length_replicate]; exact hi)
  · intro hsel
    rw [if_pos hsel]
    by_cases hft : f ≠ t
    · rw [if_pos hft]
      unfold memmove
      have := blit_block ar t ((ar.drop f).take c) (by rw [hsrc]; omega)
      rw [hsrc] at this
      exact this
    · rw [if_neg hft]
      have hft' : f = t := not_not.mp hft
      rw [hft']
  · intro hsel
    rw [if_neg (by rw [hsel]; exact fun hne => hne rfl)]
    unfold memset
    have := blit_block ar t (List.replicate c (v % 256)) (by rw [List.length_replicate]; omega)
    rw [List.length_replicate] at this
    exact this

/-- C17: `bytes_random` stays in bounds and only rewrites its destination block.  For every
buffer of length `len ≥ 2` (in an allocation of at least `len` bytes) and every generator
state, the block length `c` drawn is in `[1, len - 1]`, the offsets drawn satisfy
`from + c ≤ len` and `to + c ≤ len`, the size is kept, every byte outside `[to, to + c)` is
unchanged, and the destination block becomes the original source block `b[from..from+c)`
(when the branch selector is not 0, also when the blocks overlap) or `c` copies of one
byte (when it is 0). -/
theorem C17_bytes_random_bounds (ar : List Nat) (len s : Nat) (h : 2 ≤ len)
    (hl : len < 2 ^ 32) (hb : len ≤ ar.length) :
    1 ≤ (copy_len len s).1 ∧ (copy_len len s).1 ≤ len - 1 ∧
    (copy_from len s).1 + (copy_len len s).1 ≤ len ∧
    (copy_to len s).1 + (copy_len len s).1 ≤ len ∧
    (bytes_random ar len s).1.length = ar.length ∧
    (∀ i, i < (copy_to len s).1 ∨ (copy_to len s).1 + (copy_len len s).1 ≤ i →
      load8 (bytes_random ar len s).1 i = load8 ar i) ∧
    ((copy_sel len s).1 ≠ 0 →
      ((bytes_random ar len s).1.drop (copy_to len s).1).take (copy_len len s).1 =
        (ar.drop (copy_from len s).1).take (copy_len len s).1) ∧
    ((copy_sel len s).1 = 0 →
      ((bytes_random ar len s).1.drop (copy_to len s).1).take (copy_len len s).1 =
        List.replicate (copy_len len s).1 ((copy_fill ar len s).1 % 256)) := by
  obtain ⟨h1, h2, h3, h4⟩ := copy_draws len s h hl
  refine ⟨h1, h2, h3, h4, bytes_random_length ar len s, ?_⟩
  rw [bytes_random_unfold ar len s h]
  exact copy_outcome ar _ _ _ _ _ _ _ (by omega) (by omega)

/-- Witness of C17 on an 8-byte buffer. -/
theorem C17_bytes_random_bounds_witness :
    (2 ≤ 8 ∧ 8 < 2 ^ 32 ∧ 8 ≤ [1, 2, 3, 4, 5, 6, 7, 8, 0].length) ∧
    (1 ≤ (copy_len 8 4399).1 ∧ (copy_len 8 4399).1 ≤ 8 - 1 ∧
    (copy_from 8 4399).1 + (copy_len 8 4399).1 ≤ 8 ∧
    (copy_to 8 4399).1 + (copy_len 8 4399).1 ≤ 8 ∧
    (bytes_random [1, 2, 3, 4, 5, 6, 7, 8, 0] 8 4399).1.length =
      [1, 2, 3, 4, 5, 6, 7, 8, 0].length ∧
    (∀ i, i < (copy_to 8 4399).1 ∨ (copy_to 8 4399).1 + (copy_len 8 4399).1 ≤ i →
      load8 (bytes_random [1, 2, 3, 4, 5, 6, 7, 8, 0] 8 4399).1 i =
        load8 [1, 2, 3, 4, 5, 6, 7, 8, 0] i) ∧
    ((copy_sel 8 4399).1 ≠ 0 →
      ((bytes_random [1, 2, 3, 4, 5, 6, 7, 8, 0] 8 4399).1.drop (copy_to 8 4399).1).take
          (copy_len 8 4399).1 =
        ([1, 2, 3, 4, 5, 6, 7, 8, 0].drop (copy_from 8 4399).1).take (copy_len 8 4399).1) ∧
    ((copy_sel 8 4399).1 = 0 →
      ((bytes_random [1, 2, 3, 4, 5, 6, 7, 8, 0] 8 4399).1.drop (copy_to 8 4399).1).take
          (copy_len 8 4399).1 =
        List.replicate (copy_len 8 4399).1
          ((copy_fill [1, 2, 3, 4, 5, 6, 7, 8, 0] 8 4399).1 % 256))) :=
  ⟨⟨by decide, by decide, by decide⟩,
    C17_bytes_random_bounds [1, 2, 3, 4, 5, 6, 7, 8, 0] 8 4399
      (by decide) (by decide) (by decide)⟩

/-! ## Growth -/

/-- A fresh block holds the undefined bytes `junk`. -/
theorem load8_malloc (junk : Nat → Nat) (n i : Nat) (hi : i < n) :
    load8 (malloc junk n) i = junk i := by
  unfold load8 malloc
  rw [List.getD_eq_getElem?_getD, List.getElem?_map, List.getElem?_range hi]
  rfl

/-- The new store of `str_growth` after the prefix copy, the write of a block `blk` of `g`
bytes at `t` and the write of the sentinel at `n`: its size, its first `t` bytes, the block,
the sentinel, and the bytes behind the block, which are those `malloc` returned. -/
theorem growth_store (junk : Nat → Nat) (ar : List Nat) (t g n : Nat) (blk : List Nat)
    (ht : t ≤ ar.length) (hblk : blk.length = g) (hn : t + g < n) :
    (store8 (blit (memcpy (malloc junk (n + 1)) 0 ar 0 t) t blk) n 0).length = n + 1 ∧
    (store8 (blit (memcpy (malloc junk (n + 1)) 0 ar 0 t) t blk) n 0).take t = ar.take t ∧
    ((store8 (blit (memcpy (malloc junk (n + 1)) 0 ar 0 t) t blk) n 0).drop t).take g = blk ∧
    load8 (store8 (blit (memcpy (malloc junk (n + 1)) 0 ar 0 t) t blk) n 0) n = 0 ∧
    (∀ i, t + g ≤ i → i < n →
      load8 (store8 (blit (memcpy (malloc junk (n + 1)) 0 ar 0 t) t blk) n 0) i = junk i) := by
  have hpre : ((ar.drop 0).take t).length = t := by
    rw [List.drop_zero, List.length_take]
    omega
  have hnb : (malloc junk (n + 1)).length = n + 1 := malloc_length junk (n + 1)
  have h1len : (memcpy (malloc junk (n + 1)) 0 ar 0 t).length = n + 1 := by
    rw [memcpy_length, hnb]
  have h1take : (memcpy (malloc junk (n + 1)) 0 ar 0 t).take t = ar.take t := by
    have := blit_block (malloc junk (n + 1)) 0 ((ar.drop 0).take t) (by rw [hpre, hnb]; omega)
    rw [hpre, List.drop_zero, List.drop_zero] at this
    unfold memcpy
    rw [List.drop_zero]
    exact this
  have h2len : (blit (memcpy (malloc junk (n + 1)) 0 ar 0 t) t blk).length = n + 1 := by
    rw [blit_length, h1len]
  have hfit : t + blk.length ≤ (memcpy (malloc junk (n + 1)) 0 ar 0 t).length := by
    rw [h1len, hblk]
    omega
  have h2take : (blit (memcpy (malloc junk (n + 1)) 0 ar 0 t) t blk).take t = ar.take t := by
    rw [blit_head _ t blk hfit, h1take]
  have h2blk : ((blit (memcpy (malloc junk (n + 1)) 0 ar 0 t) t blk).drop t).take g = blk := by
    have := blit_block _ t blk hfit
    rw [hblk] at this
    exact this
  refine ⟨?_, ?_, ?_, ?_, ?_⟩
  · rw [store8_length, h2len]
  · unfold store8
    rw [List.take_set_of_lt _ _ (by omega), h2take]
  · unfold store8
    have e1 : ∀ l : List Nat, (l.drop t).take g = (l.take (t + g)).drop t := by
      intro l
      rw [List.drop_take, Nat.add_sub_cancel_left]
    rw [e1, List.take_set_of_lt _ _ hn, ← e1, h2blk]
  · unfold store8 load8
    rw [List.getD_eq_getElem?_getD, List.getElem?_set_self (by rw [h2len]; omega)]
    rfl
  · intro i hi1 hi2
    have hs : load8 (store8 (blit (memcpy (malloc junk (n + 1)) 0 ar 0 t) t blk) n 0) i =
        load8 (blit (memcpy (malloc junk (n + 1)) 0 ar 0 t) t blk) i := by
      unfold store8 load8
      rw [List.getD_eq_getElem?_getD, List.getD_eq_getElem?_getD,
        List.getElem?_set_ne (by omega)]
    rw [hs, blit_outside _ t blk i hfit (Or.inr (by rw [hblk]; exact hi1))]
    unfold memcpy
    rw [blit_outside _ 0 _ i (by rw [hpre, hnb]; omega) (Or.inr (by rw [hpre]; omega))]
    exact load8_malloc junk (n + 1) i (by omega)

/-- The draws of `str_growth` below the cap: the growth length is in `[1, 32768]`, the
selector is below 4, the cloned block lies inside the buffer, and the insertion point is
below `len`. -/
theorem growth_draws (len s : Nat) (h1 : 1 ≤ len) (hm : len ≤ MAX_STR_LEN) :
    1 ≤ (growth_len len s).1 ∧ (growth_len len s).1 ≤ 32768 ∧
    (growth_sel s).1 < 4 ∧
    ((growth_sel s).1 ≠ 0 →
      (growth_len len s).1 ≤ len ∧ (growth_from len s).1 + (growth_len len s).1 ≤ len) ∧
    (growth_to len s).1 < len := by
  have hm' : len ≤ 1048576 := hm
  have hl : len < 2 ^ 32 := by omega
  have hsel : (growth_sel s).1 < 4 := by
    unfold growth_sel
    exact lt_of_le_of_lt (Nat.mod_le _ _) (rand_range_lt 4 s (by omega))
  have hg : 1 ≤ (growth_len len s).1 ∧ (growth_len len s).1 ≤ 32768 ∧
      ((growth_sel s).1 ≠ 0 → (growth_len len s).1 ≤ len) := by
    unfold growth_len
    by_cases hc : (growth_sel s).1 ≠ 0
    · rw [if_pos hc]
      exact ⟨choose_block_len_pos len _ h1 hl, choose_block_len_le_XL len _ h1 hl,
        fun _ => choose_block_len_le_limit len _ h1 hl⟩
    · rw [if_neg hc]
      exact ⟨choose_block_len_pos HAVOC_BLK_XL _ (by decide) (by decide),
        choose_block_len_le_XL HAVOC_BLK_XL _ (by decide) (by decide),
        fun h => absurd h hc⟩
  have ht : (growth_to len s).1 < len := by
    have := rand_range_le_pred len (growth_from len s).2
    unfold growth_to
    omega
  refine ⟨hg.1, hg.2.1, hsel, ?_, ht⟩
  intro hc
  refine ⟨hg.2.2 hc, ?_⟩
  have hgl := hg.2.2 hc
  have hf := rand_range_le_pred (add32 (sub32 len (growth_len len s).1) 1) (growth_len len s).2
  unfold growth_from
  rw [if_pos hc]
  generalize (chain_rng_rand_range (add32 (sub32 len (growth_len len s).1) 1)
    (growth_len len s).2).1 = f at hf ⊢
  generalize (growth_len len s).1 = g at hgl hf ⊢
  unfold add32 sub32 at hf
  omega

/-- The result of `str_growth` on a buffer of length in `[1, MAX_STR_LEN]`. -/
theorem str_growth_unfold (junk : Nat → Nat) (ar : List Nat) (len s : Nat)
    (h1 : 1 ≤ len) (hm : len ≤ MAX_STR_LEN) :
    str_growth junk ar len s =
      (store8
        (if (growth_sel s).1 ≠ 0 then
          memcpy
            (memcpy (malloc junk (add32 (add32 len (growth_len len s).1) 1)) 0 ar 0
              (growth_to len s).1)
            (growth_to len s).1 ar (growth_from len s).1 (growth_len len s).1
        else
          memset
            (memcpy (malloc junk (add32 (add32 len (growth_len len s).1) 1)) 0 ar 0
              (growth_to len s).1)
            (growth_to len s).1 (growth_fill ar len s).1 (growth_len len s).1)
        (add32 len (growth_len len s).1) 0,
        add32 len (growth_len len s).1,
        if (growth_sel s).1 ≠ 0 then (growth_to len s).2 else (growth_fill ar len s).2) := by
  unfold str_growth
  rw [if_neg (by omega), if_neg (by omega)]
  by_cases hc : (growth_sel s).1 ≠ 0
  · have hc' : (chain_rng_rand_range 4 s).1 % 256 ≠ 0 := hc
    rw [if_pos hc, if_pos hc]
    simp only [if_pos hc']
    unfold growth_to growth_from growth_len growth_sel
    simp only [if_pos hc']
  · have hc' : ¬ (chain_rng_rand_range 4 s).1 % 256 ≠ 0 := hc
    rw [if_neg hc, if_neg hc]
    simp only [if_neg hc']
    unfold growth_fill growth_to growth_from growth_len growth_sel
    simp only [if_neg hc']

/-- C16: growth postcondition.  For every buffer `b` with `1 ≤ len ≤ MAX_STR_LEN` (in an
allocation of at least `len` bytes) and every generator state, with `g` the growth length,
`t` the insertion point and `f` the source offset drawn: the new length is `len + g` with
`1 ≤ g ≤ 32768`; the selector is below 4 and picks the clone branch unless it is 0; in the
clone branch `g ≤ len` and `f + g ≤ len`; `t < len`; the new store has `len + g + 1` bytes;
its first `t` bytes are `b[0..t)`; its next `g` bytes are `b[f..f+g)` in the clone branch
and `g` copies of one byte in the insert branch; its byte at index `len + g` is 0; and its
bytes from `t + g` up to the sentinel are those `malloc` returned: nothing of `b` is copied
behind the inserted block. -/
theorem C16_growth_postcondition (junk : Nat → Nat) (ar : List Nat) (len s : Nat)
    (h1 : 1 ≤ len) (hm : len ≤ MAX_STR_LEN) (hb : len ≤ ar.length) :
    (str_growth junk ar len s).2.1 = len + (growth_len len s).1 ∧
    1 ≤ (growth_len len s).1 ∧ (growth_len len s).1 ≤ 32768 ∧
    (growth_sel s).1 < 4 ∧
    ((growth_sel s).1 ≠ 0 →
      (growth_len len s).1 ≤ len ∧ (growth_from len s).1 + (growth_len len s).1 ≤ len) ∧
    (growth_to len s).1 < len ∧
    (str_growth junk ar len s).1.length = len + (growth_len len s).1 + 1 ∧
    (str_growth junk ar len s).1.take (growth_to len s).1 = ar.take (growth_to len s).1 ∧
    ((growth_sel s).1 ≠ 0 →
      ((str_growth junk ar len s).1.drop (growth_to len s).1).take (growth_len len s).1 =
        (ar.drop (growth_from len s).1).take (growth_len len s).1) ∧
    ((growth_sel s).1 = 0 →
      ((str_growth junk ar len s).1.drop (growth_to len s).1).take (growth_len len s).1 =
        List.replicate (growth_len len s).1 ((growth_fill ar len s).1 % 256)) ∧
    load8 (str_growth junk ar len s).1 (len + (growth_len len s).1) = 0 ∧
    (∀ i, (growth_to len s).1 + (growth_len len s).1 ≤ i → i < len + (growth_len len s).1 →
      load8 (str_growth junk ar len s).1 i = junk i) := by
  obtain ⟨hg1, hg2, hsel, hclone, ht⟩ := growth_draws len s h1 hm
  have hm' : len ≤ 1048576 := hm
  have hn : add32 len (growth_len len s).1 = len + (growth_len len s).1 := by
    unfold add32
    omega
  have hN : add32 (len + (growth_len len s).1) 1 = len + (growth_len len s).1 + 1 := by
    unfold add32
    omega
  rw [str_growth_unfold junk ar len s h1 hm, hn, hN]
  refine ⟨rfl, hg1, hg2, hsel, hclone, ht, ?_⟩
  by_cases hc : (growth_sel s).1 ≠ 0
  · obtain ⟨hgl, hfg⟩ := hclone hc
    have hblk : ((ar.drop (growth_from len s).1).take (growth_len len s).1).length =
        (growth_len len s).1 := by
      rw [List.length_take, List.length_drop]
      omega
    obtain ⟨k1, k2, k3, k4, k5⟩ := growth_store junk ar (growth_to len s).1
      (growth_len len s).1 (len + (growth_len len s).1)
      ((ar.drop (growth_from len s).1).take (growth_len len s).1) (by omega) hblk (by omega)
    simp only [if_pos hc]
    unfold memcpy at k1 k2 k3 k4 k5 ⊢
    exact ⟨k1, k2, fun _ => k3, fun h0 => absurd h0 hc, k4, k5⟩
  · have hblk : (List.replicate (growth_len len s).1 ((growth_fill ar len s).1 % 256)).length =
        (growth_len len s).1 := List.length_replicate _ _
    obtain ⟨k1, k2, k3, k4, k5⟩ := growth_store junk ar (growth_to len s).1
      (growth_len len s).1 (len + (growth_len len s).1)
      (List.replicate (growth_len len s).1 ((growth_fill ar len s).1 % 256))
      (by omega) hblk (by omega)
    simp only [if_neg hc]
    unfold memset
    unfold memcpy at k1 k2 k3 k4 k5 ⊢
    exact ⟨k1, k2, fun h0 => absurd h0 hc, fun _ => k3, k4, k5⟩

/-- Witness of C16 on the 4-byte string `abcd`. -/
theorem C16_growth_postcondition_witness :
    (1 ≤ 4 ∧ 4 ≤ MAX_STR_LEN ∧ 4 ≤ [97, 98, 99, 100, 0].length) ∧
    ((str_growth (fun _ => 170) [97, 98, 99, 100, 0] 4 4399).2.1 = 4 + (growth_len 4 4399).1 ∧
    1 ≤ (growth_len 4 4399).1 ∧ (growth_len 4 4399).1 ≤ 32768 ∧
    (growth_sel 4399).1 < 4 ∧
    ((growth_sel 4399).1 ≠ 0 →
      (growth_len 4 4399).1 ≤ 4 ∧ (growth_from 4 4399).1 + (growth_len 4 4399).1 ≤ 4) ∧
    (growth_to 4 4399).1 < 4 ∧
    (str_growth (fun _ => 170) [97, 98, 99, 100, 0] 4 4399).1.length =
      4 + (growth_len 4 4399).1 + 1 ∧
    (str_growth (fun _ => 170) [97, 98, 99, 100, 0] 4 4399).1.take (growth_to 4 4399).1 =
      [97, 98, 99, 100, 0].take (growth_to 4 4399).1 ∧
    ((growth_sel 4399).1 ≠ 0 →
      ((str_growth (fun _ => 170) [97, 98, 99, 100, 0] 4 4399).1.drop
          (growth_to 4 4399).1).take (growth_len 4 4399).1 =
        ([97, 98, 99, 100, 0].drop (growth_from 4 4399).1).take (growth_len 4 4399).1) ∧
    ((growth_sel 4399).1 = 0 →
      ((str_growth (fun _ => 170) [97, 98, 99, 100, 0] 4 4399).1.drop
          (growth_to 4 4399).1).take (growth_len 4 4399).1 =
        List.replicate (growth_len 4 4399).1
          ((growth_fill [97, 98, 99, 100, 0] 4 4399).1 % 256)) ∧
    load8 (str_growth (fun _ => 170) [97, 98, 99, 100, 0] 4 4399).1
      (4 + (growth_len 4 4399).1) = 0 ∧
    (∀ i, (growth_to 4 4399).1 + (growth_len 4 4399).1 ≤ i → i < 4 + (growth_len 4 4399).1 →
      load8 (str_growth (fun _ => 170) [97, 98, 99, 100, 0] 4 4399).1 i =
        (fun _ => 170) i)) :=
  ⟨⟨by decide, by decide, by decide⟩,
    C16_growth_postcondition (fun _ => 170) [97, 98, 99, 100, 0] 4 4399
      (by decide) (by decide) (by decide)⟩

/-! ## The mixing function is a bijection -/

/-- Multiplication by a constant with an inverse modulo `2^64` is undone by the inverse. -/
theorem mul_mod_inv (m minv a : Nat) (hinv : (m * minv) % 2 ^ 64 = 1) (ha : a < 2 ^ 64) :
    ((a * m) % 2 ^ 64 * minv) % 2 ^ 64 = a := by
  rw [Nat.mod_mul_mod, Nat.mul_assoc, Nat.mul_mod, hinv, Nat.mul_one, Nat.mod_mod,
    Nat.mod_eq_of_lt ha]

/-- The step `x ^ (x >> k)` on a 64-bit word is undone by `y ^ (y >> k) ^ (y >> 2k)` when
`3k ≥ 64`. -/
theorem xorshift_inv (k x : Nat) (hx : x < 2 ^ 64) (hk : 64 ≤ 3 * k) :
    (x ^^^ (x >>> k)) ^^^ ((x ^^^ (x >>> k)) >>> k) ^^^ ((x ^^^ (x >>> k)) >>> (2 * k)) = x := by
  apply Nat.eq_of_testBit_eq
  intro i
  have h0 : x.testBit (k + (2 * k + i)) = false := by
    have hlt : x < 2 ^ (k + (2 * k + i)) :=
      lt_of_lt_of_le hx (Nat.pow_le_pow_right (by omega) (by omega))
    exact Nat.testBit_lt_two_pow hlt
  have h1 : k + (k + i) = 2 * k + i := by omega
  simp only [Nat.testBit_xor, Nat.testBit_shiftRight, h0, h1]
  cases x.testBit i <;> cases x.testBit (k + i) <;> cases x.testBit (2 * k + i) <;> rfl

/-- The step `x ^ (x >> k)` is injective on 64-bit words when `3k ≥ 64`. -/
theorem xorshift_inj (k x y : Nat) (hx : x < 2 ^ 64) (hy : y < 2 ^ 64) (hk : 64 ≤ 3 * k)
    (h : x ^^^ (x >>> k) = y ^^^ (y >>> k)) : x = y := by
  rw [← xorshift_inv k x hx hk, ← xorshift_inv k y hy hk, h]

/-- Multiplication modulo `2^64` by a constant with an inverse is injective on 64-bit
words. -/
theorem mul_mod_inj (m minv a b : Nat) (hinv : (m * minv) % 2 ^ 64 = 1)
    (ha : a < 2 ^ 64) (hb : b < 2 ^ 64) (h : (a * m) % 2 ^ 64 = (b * m) % 2 ^ 64) : a = b := by
  rw [← mul_mod_inv m minv a hinv ha, ← mul_mod_inv m minv b hinv hb, h]

/-- The step `x ^ (x >> k)` keeps a 64-bit word a 64-bit word. -/
theorem xorshift_lt (k x : Nat) (hx : x < 2 ^ 64) : x ^^^ (x >>> k) < 2 ^ 64 := by
  apply Nat.xor_lt_two_pow hx
  rw [Nat.shiftRight_eq_div_pow]
  exact lt_of_le_of_lt (Nat.div_le_self _ _) hx

theorem hash64_lt (x : Nat) : hash64 x < 2 ^ 64 := by
  unfold hash64
  exact xorshift_lt 31 _ (Nat.mod_lt _ (by decide))

theorem hash64_inj (x y : Nat) (hx : x < 2 ^ 64) (hy : y < 2 ^ 64)
    (h : hash64 x = hash64 y) : x = y := by
  unfold hash64 at h
  dsimp only at h
  have hN : 0 < 2 ^ 64 := by decide
  have hcx : x ^^^ 0x9E3779B97F4A7C15 < 2 ^ 64 := Nat.xor_lt_two_pow hx (by decide)
  have hcy : y ^^^ 0x9E3779B97F4A7C15 < 2 ^ 64 := Nat.xor_lt_two_pow hy (by decide)
  have hax := Nat.mod_lt ((x ^^^ 0x9E3779B97F4A7C15) * 0xBF58476D1CE4E5B9) hN
  have hay := Nat.mod_lt ((y ^^^ 0x9E3779B97F4A7C15) * 0xBF58476D1CE4E5B9) hN
  have h3 := xorshift_inj 31 _ _ (Nat.mod_lt _ hN) (Nat.mod_lt _ hN) (by decide) h
  have h2 := mul_mod_inj 0x94D049BB133111EB 0x319642b2d24d8ec3 _ _ (by decide)
    (xorshift_lt 30 _ hax) (xorshift_lt 30 _ hay) h3
  have h1 := xorshift_inj 30 _ _ hax hay (by decide) h2
  have h0 := mul_mod_inj 0xBF58476D1CE4E5B9 0x96de1b173f119089 _ _ (by decide) hcx hcy h1
  exact Nat.xor_left_injective h0

/-- C18: `hash64`, the state update of `chain_rng_next`, is a bijection on 64-bit words:
it is injective on them (`hash64(x) = hash64(y)` implies `x = y`), maps them to 64-bit
words, and reaches every 64-bit word. -/
theorem C18_hash64_bijective :
    (∀ x y, x < 2 ^ 64 → y < 2 ^ 64 → hash64 x = hash64 y → x = y) ∧
    (∀ x, chain_rng_next x = hash64 x ∧ hash64 x < 2 ^ 64) ∧
    (∀ z, z < 2 ^ 64 → ∃ x, x < 2 ^ 64 ∧ hash64 x = z) := by
  refine ⟨hash64_inj, fun x => ⟨rfl, hash64_lt x⟩, ?_⟩
  intro z hz
  obtain ⟨x, hx, hxz⟩ := Finset.surj_on_of_inj_on_of_card_le
    (fun a (_ : a ∈ Finset.range (2 ^ 64)) => hash64 a)
    (fun a _ => Finset.mem_range.mpr (hash64_lt a))
    (fun a b ha hb hab => hash64_inj a b (Finset.mem_range.mp ha) (Finset.mem_range.mp hb) hab)
    (le_refl _) z (Finset.mem_range.mpr hz)
  exact ⟨x, Finset.mem_range.mp hx, hxz.symm⟩

/-! ## The tiers of the block-length selector -/

/-- C19 as stated fails: from the state 12 the tier selector draws 0 and
`choose_block_len(100)` returns 32, which is not in `[1, 32)`; from the state 2147483835 it
draws 1 and `choose_block_len(1000)` returns 128, which is not in `[32, 128)`. -/
theorem C19_counterexample :
    (chain_rng_rand_range 3 12).1 = 0 ∧ (choose_block_len 100 12).1 = 32 ∧
    ¬ ((choose_block_len 100 12).1 < 32) ∧
    (chain_rng_rand_range 3 2147483835).1 = 1 ∧ 32 < 1000 ∧
    (choose_block_len 1000 2147483835).1 = 128 ∧
    ¬ ((choose_block_len 1000 2147483835).1 < 128) := by
  decide

/-- The tier bounds picked when the tier selector draws 0 or 1. -/
theorem choose_block_tier_low (s : Nat) :
    ((chain_rng_rand_range 3 s).1 = 0 → (choose_block_tier s).1 = (1, 32)) ∧
    ((chain_rng_rand_range 3 s).1 = 1 → (choose_block_tier s).1 = (32, 128)) := by
  unfold choose_block_tier
  dsimp only
  constructor
  · intro h
    rw [h]
    rfl
  · intro h
    rw [h]
    rfl

/-- C19, amended: the tier ranges of the block-length selector are closed.  For every
`limit > 0` (32-bit) and every generator state in which the tier selector draws 0,
`choose_block_len(limit)` is in `[1, 32]` (and at most `limit`); when it draws 1 and
`limit > 32`, the result is in `[32, 128]` (and at most `limit`). -/
theorem C19_tier_ranges (limit s : Nat) (h : 0 < limit) (hl : limit < 2 ^ 32) :
    ((chain_rng_rand_range 3 s).1 = 0 →
      1 ≤ (choose_block_len limit s).1 ∧ (choose_block_len limit s).1 ≤ 32 ∧
      (choose_block_len limit s).1 ≤ limit) ∧
    ((chain_rng_rand_range 3 s).1 = 1 → 32 < limit →
      32 ≤ (choose_block_len limit s).1 ∧ (choose_block_len limit s).1 ≤ 128 ∧
      (choose_block_len limit s).1 ≤ limit) := by
  obtain ⟨h1, h2⟩ := choose_block_len_range limit s h hl
  obtain ⟨t0, t1⟩ := choose_block_tier_low s
  have hpos := choose_block_len_pos limit s h hl
  constructor
  · intro ht
    have e := t0 ht
    unfold MIN at h2
    rw [e] at h2
    dsimp only at h2
    split_ifs at h2 <;> omega
  · intro ht hlim
    have e := t1 ht
    unfold choose_block_min at h1
    unfold MIN at h2
    dsimp only at h1
    rw [e] at h1 h2
    dsimp only at h1 h2
    rw [if_neg (by omega)] at h1
    split_ifs at h2 <;> omega

/-- Witness of the amended C19 at `limit = 100` and the state 12, where 32 is returned. -/
theorem C19_tier_ranges_witness :
    (0 < 100 ∧ 100 < 2 ^ 32) ∧
    (((chain_rng_rand_range 3 12).1 = 0 →
      1 ≤ (choose_block_len 100 12).1 ∧ (choose_block_len 100 12).1 ≤ 32 ∧
      (choose_block_len 100 12).1 ≤ 100) ∧
    ((chain_rng_rand_range 3 12).1 = 1 → 32 < 100 →
      32 ≤ (choose_block_len 100 12).1 ∧ (choose_block_len 100 12).1 ≤ 128 ∧
      (choose_block_len 100 12).1 ≤ 100)) :=
  ⟨⟨by decide, by decide⟩, C19_tier_ranges 100 12 (by decide) (by decide)⟩

/-! ## The bit position of the bit flip -/

/-- A byte at another index than the one written is unchanged. -/
theorem load8_set_ne (ar : List Nat) (j i v : Nat) (h : j ≠ i) :
    load8 (ar.set j v) i = load8 ar i := by
  unfold load8
  rw [List.getD_eq_getElem?_getD, List.getD_eq_getElem?_getD, List.getElem?_set_ne h]

/-- C20: `bitflip1` draws its bit position `p` with the bound `len`, the number of bytes.
For every buffer of length `len ≥ 1` and every generator state, `p < len`, the byte written
is the byte `p >> 3`, whose index is below `ceil(len / 8)`, with the mask `128 >> (p & 7)`;
bytes at index `ceil(len / 8)` or more are unchanged; when `len ≤ 8` only byte 0 can
change; when `len = 1` the bit flipped is `0x80` of byte 0. -/
theorem C20_bitflip1_position (ar : List Nat) (len s : Nat) (h : 1 ≤ len) :
    (chain_rng_rand_range len s).1 < len ∧
    (chain_rng_rand_range len s).1 >>> 3 < (len + 7) / 8 ∧
    (bitflip1 ar len s).1 =
      ar.set ((chain_rng_rand_range len s).1 >>> 3)
        (load8 ar ((chain_rng_rand_range len s).1 >>> 3) ^^^
          (128 >>> ((chain_rng_rand_range len s).1 &&& 7))) ∧
    (∀ i, (len + 7) / 8 ≤ i → load8 (bitflip1 ar len s).1 i = load8 ar i) ∧
    (len ≤ 8 → ∀ i, 1 ≤ i → load8 (bitflip1 ar len s).1 i = load8 ar i) ∧
    (len = 1 → (bitflip1 ar len s).1 = ar.set 0 (load8 ar 0 ^^^ 0x80)) := by
  have hp := rand_range_le_pred len s
  have hshift : (chain_rng_rand_range len s).1 >>> 3 = (chain_rng_rand_range len s).1 / 8 := by
    rw [Nat.shiftRight_eq_div_pow]
  have hout : (bitflip1 ar len s).1 =
      ar.set ((chain_rng_rand_range len s).1 >>> 3)
        (load8 ar ((chain_rng_rand_range len s).1 >>> 3) ^^^
          (128 >>> ((chain_rng_rand_range len s).1 &&& 7))) := by
    unfold bitflip1
    rw [if_neg (by omega)]
  refine ⟨by omega, by rw [hshift]; omega, hout, ?_, ?_, ?_⟩
  · intro i hi
    rw [hout]
    exact load8_set_ne ar _ i _ (by rw [hshift]; omega)
  · intro h8 i hi
    rw [hout]
    exact load8_set_ne ar _ i _ (by rw [hshift]; omega)
  · intro h1
    rw [hout, h1, rand_range_degenerate 1 s (le_refl 1)]
    dsimp only
    have e1 : 0 >>> 3 = 0 := by decide
    have e2 : 128 >>> (0 &&& 7) = 0x80 := by decide
    rw [e1, e2]

/-- Witness of C20 on the 4-byte buffer of the integer 0: only byte 0 can change. -/
theorem C20_bitflip1_position_witness :
    1 ≤ 4 ∧
    ((chain_rng_rand_range 4 12345678901234567).1 < 4 ∧
    (chain_rng_rand_range 4 12345678901234567).1 >>> 3 < (4 + 7) / 8 ∧
    (bitflip1 [0, 0, 0, 0] 4 12345678901234567).1 =
      [0, 0, 0, 0].set ((chain_rng_rand_range 4 12345678901234567).1 >>> 3)
        (load8 [0, 0, 0, 0] ((chain_rng_rand_range 4 12345678901234567).1 >>> 3) ^^^
          (128 >>> ((chain_rng_rand_range 4 12345678901234567).1 &&& 7))) ∧
    (∀ i, (4 + 7) / 8 ≤ i →
      load8 (bitflip1 [0, 0, 0, 0] 4 12345678901234567).1 i = load8 [0, 0, 0, 0] i) ∧
    (4 ≤ 8 → ∀ i, 1 ≤ i →
      load8 (bitflip1 [0, 0, 0, 0] 4 12345678901234567).1 i = load8 [0, 0, 0, 0] i) ∧
    (4 = 1 → (bitflip1 [0, 0, 0, 0] 4 12345678901234567).1 =
      [0, 0, 0, 0].set 0 (load8 [0, 0, 0, 0] 0 ^^^ 0x80))) :=
  ⟨by decide, C20_bitflip1_position [0, 0, 0, 0] 4 12345678901234567 (by decide)⟩

end Mutate
